import Mathlib

/- Verification development for the one-layer quasi-geostrophic channel solver
   (QG_pert_channel.py): a shallow embedding of the pseudo-spectral flux
   evaluator `flux_qg`, the parameter constructor `Parms.__init__` (here
   `mkParms`), and the Euler/AB2/AB3 time integrator `solve_qg`, together with
   theorems about them.  Real arrays are embedded as functions on `Fin`,
   floating-point arithmetic is idealised as real arithmetic, and the scipy
   `fftn`/`ifftn` transforms are embedded as the discrete Fourier transform
   with explicit twiddle factors.  numpy index assignment out of bounds is a
   runtime fault and is modelled by `Option`. -/

set_option maxHeartbeats 1600000

noncomputable section

namespace QG

/-- Real 2-D array of shape (m, n). -/
abbrev Mat (m n : ℕ) : Type := Fin m → Fin n → ℝ

/-- Complex 2-D array of shape (m, n). -/
abbrev CMat (m n : ℕ) : Type := Fin m → Fin n → ℂ

/-- Real array viewed as a complex array (numpy implicit upcast). -/
def toC {m n : ℕ} (A : Mat m n) : CMat m n := fun r c => (A r c : ℂ)

/-- Elementwise real part (`.real` in numpy). -/
def reM {m n : ℕ} (A : CMat m n) : Mat m n := fun r c => (A r c).re

/-- Elementwise (Hadamard) product, numpy `*` on arrays. -/
def had {m n : ℕ} (A B : CMat m n) : CMat m n := fun r c => A r c * B r c

/-- `np.mean` over a 2-D array. -/
def meanM {m n : ℕ} (A : Mat m n) : ℝ := (∑ r, ∑ c, A r c) / ((m : ℝ) * (n : ℝ))

/-- DFT twiddle factor `exp(-2*pi*i*j/m)`. -/
def dftW (m : ℕ) (j : ℤ) : ℂ := Complex.exp (-(2 * (Real.pi : ℂ) * Complex.I * (j : ℂ)) / (m : ℂ))

/-- 2-D forward discrete Fourier transform (scipy `fftn`, no normalisation). -/
def fftn {m n : ℕ} (A : CMat m n) : CMat m n :=
  fun k l => ∑ r, ∑ c, A r c * dftW m ((k.1 * r.1 : ℕ) : ℤ) * dftW n ((l.1 * c.1 : ℕ) : ℤ)

/-- 2-D inverse discrete Fourier transform (scipy `ifftn`, 1/(m*n) normalisation). -/
def ifftn {m n : ℕ} (A : CMat m n) : CMat m n :=
  fun r c => ((((1 : ℝ) / ((m : ℝ) * (n : ℝ))) : ℝ) : ℂ) *
    ∑ k, ∑ l, A k l * dftW m (-((k.1 * r.1 : ℕ) : ℤ)) * dftW n (-((l.1 * c.1 : ℕ) : ℤ))

/-- Odd (antisymmetric) vertical extension `np.vstack((q, -np.flipud(q)))`. -/
def extend {Ny Nx : ℕ} (q : Mat Ny Nx) : Mat (2 * Ny) Nx :=
  fun r c =>
    if h : r.1 < Ny then q ⟨r.1, h⟩ c
    else -q ⟨2 * Ny - 1 - r.1, by have hr := r.isLt; omega⟩ c

/-- Restriction to the physical domain, `A[0:Ny, :]`. -/
def restrict {Ny Nx : ℕ} (A : Mat (2 * Ny) Nx) : Mat Ny Nx :=
  fun r c => A ⟨r.1, by have hr := r.isLt; omega⟩ c

/-- Entry `c` of the zonal wavenumber array
    `kx = 2*pi/Lx*hstack([range(0, Nx/2+1), range(-Nx/2+1, 0)])`. -/
def kxv (Nx : ℕ) (Lx : ℝ) (c : ℕ) : ℝ :=
  2 * Real.pi / Lx * (if c ≤ Nx / 2 then (c : ℝ) else (c : ℝ) - (Nx : ℝ))

/-- Entry `r` of the meridional wavenumber array
    `ky = pi/Ly*hstack([range(0, Ny+1), range(-Ny+1, 0)])` (length `2*Ny`). -/
def kyv (Ny : ℕ) (Ly : ℝ) (r : ℕ) : ℝ :=
  Real.pi / Ly * (if r ≤ Ny then (r : ℝ) else (r : ℝ) - 2 * (Ny : ℝ))

/-- The parameter object built by `Parms.__init__`. -/
structure Parms where
  Nx : ℕ
  Ny : ℕ
  Lx : ℝ
  Ly : ℝ
  g0 : ℝ
  H0 : ℝ
  f0 : ℝ
  beta : ℝ
  t0 : ℝ
  dt : ℝ
  tf : ℝ
  npt : ℕ
  tplot : ℝ
  dx : ℝ
  dy : ℝ
  F : ℝ
  U : ℝ
  Q_y : ℝ
  xx : Mat Ny Nx
  yy : Mat Ny Nx
  ikx : CMat (2 * Ny) Nx
  iky : CMat (2 * Ny) Nx
  K2Fi : Mat (2 * Ny) Nx
  sfilt : Mat (2 * Ny) Nx

/-- The `Parms.__init__` constructor: derives all grid, wavenumber, inversion
    and filter arrays from the configuration parameters, mirroring the source
    line by line (`F = 0*(f0/(g0*H0))**2`, `U = 0`, `Q_y = F*U + beta`,
    `K2Fi = -1/(kxx**2+kyy**2+F)` with the `[0,0]` entry special-cased, and the
    exponential filter `sfilt`). -/
def mkParms (Nx Ny : ℕ) (Lx Ly g0 H0 f0 beta t0 dt tf : ℝ) (npt : ℕ) : Parms :=
  let dx := Lx / (Nx : ℝ)
  let dy := Ly / (Ny : ℝ)
  let F := 0 * (f0 / (g0 * H0)) ^ 2
  let U := (0 : ℝ)
  let kmax := (((Finset.range Nx).image fun c => kxv Nx Lx c).max).unbot' 0
  let ks := 0.4 * kmax
  let km := 0.5 * kmax
  let alpha := 0.69 * ks ^ (-(1.88 / Real.log (km / ks)))
  let betaf := 1.88 / Real.log (km / ks)
  { Nx := Nx, Ny := Ny, Lx := Lx, Ly := Ly, g0 := g0, H0 := H0, f0 := f0,
    beta := beta, t0 := t0, dt := dt, tf := tf, npt := npt, tplot := dt * npt,
    dx := dx, dy := dy, F := F, U := U, Q_y := F * U + beta,
    xx := fun _ c => -Lx / 2 + dx / 2 + (c : ℝ) * ((Lx - dx) / ((Nx : ℝ) - 1)),
    yy := fun r _ => -Ly / 2 + dy / 2 + (r : ℝ) * ((Ly - dy) / ((Ny : ℝ) - 1)),
    ikx := fun _ c => Complex.I * (kxv Nx Lx c.1 : ℝ),
    iky := fun r _ => Complex.I * (kyv Ny Ly r.1 : ℝ),
    K2Fi := fun r c =>
      if r.1 = 0 ∧ c.1 = 0 then (if F = 0 then 0 else -1 / F)
      else -1 / ((kxv Nx Lx c.1) ^ 2 + (kyv Ny Ly r.1) ^ 2 + F),
    sfilt := fun r c =>
      Real.exp (-alpha * ((kxv Nx Lx c.1) ^ 2 + (kyv Ny Ly r.1) ^ 2) ^ (betaf / 2)) }

/-- `flux_qg(q, parms)`: spectral evaluation of the advective flux and of the
    three diagnostics (energy, enstrophy, mass), mirroring the source. -/
def flux_qg (p : Parms) (q : Mat p.Ny p.Nx) : Mat p.Ny p.Nx × ℝ × ℝ × ℝ :=
  let qe := extend q
  let qe_hat := fftn (toC qe)
  let q_x := reM (ifftn (had p.ikx qe_hat))
  let q_y := reM (ifftn (had p.iky qe_hat))
  let psie_hat := had (toC p.K2Fi) qe_hat
  let psi := reM (ifftn psie_hat)
  let u := reM (ifftn (had (-p.iky) psie_hat))
  let v := reM (ifftn (had p.ikx psie_hat))
  let q_xr := restrict q_x
  let q_yr := restrict q_y
  let ur := restrict u
  let vr := restrict v
  let psir := restrict psi
  let flux : Mat p.Ny p.Nx :=
    fun r c => -(ur r c + p.U) * q_xr r c - (q_yr r c + p.Q_y) * vr r c
  let energy := 0.5 * meanM (fun r c => ur r c ^ 2 + vr r c ^ 2) +
    meanM (fun r c => p.F * psir r c ^ 2)
  let enstr := meanM (fun r c => q r c ^ 2)
  let mass := meanM psir
  (flux, energy, enstr, mass)

/-- Flux field only. -/
def fluxF (p : Parms) (q : Mat p.Ny p.Nx) : Mat p.Ny p.Nx := (flux_qg p q).1

/-- The exponential spectral filter step of the AB3 loop:
    `qe = vstack((q, -flipud(q))); qe = ifftn(sfilt*fftn(qe)).real; q = qe[0:Ny,:]`. -/
def filt (p : Parms) (q : Mat p.Ny p.Nx) : Mat p.Ny p.Nx :=
  restrict (reM (ifftn (had (toC p.sfilt) (fftn (toC (extend q))))))

/-- numpy index assignment `l[i] = x`: fails (IndexError) when out of bounds. -/
def setIdx (l : List ℝ) (i : ℕ) (x : ℝ) : Option (List ℝ) :=
  if i < l.length then some (l.set i x) else none

/-- `Nt = int(parms.tf/parms.dt)` (Python `int()` truncation). -/
def Nt (p : Parms) : ℕ := (Int.floor (p.tf / p.dt)).toNat

/-- Loop state of `solve_qg`: current field, the two retained fluxes, and the
    three diagnostic arrays. -/
structure St (Ny Nx : ℕ) where
  q : Mat Ny Nx
  NLn : Mat Ny Nx
  NLnm : Mat Ny Nx
  energy : List ℝ
  enstr : List ℝ
  mass : List ℝ

/-- One iteration of the AB3 loop body (loop variable `ii`): evaluate the flux
    of the current field, record diagnostics at index `ii-1`, take the AB3 step
    (the source's `.real` is the identity on these real arrays), apply the
    exponential filter, and rotate the flux history. -/
def qgStep (p : Parms) (ii : ℕ) (st : St p.Ny p.Nx) : Option (St p.Ny p.Nx) :=
  let f := flux_qg p st.q
  (setIdx st.energy (ii - 1) f.2.1).bind fun energy1 =>
  (setIdx st.enstr (ii - 1) f.2.2.1).bind fun enstr1 =>
  (setIdx st.mass (ii - 1) f.2.2.2).bind fun mass1 =>
  some ⟨filt p (st.q + (p.dt / 12) • ((23 : ℝ) • f.1 - (16 : ℝ) • st.NLn + (5 : ℝ) • st.NLnm)),
        f.1, st.NLn, energy1, enstr1, mass1⟩

/-- The `for ii in range(3, Nt+1)` loop, with `cnt` remaining iterations.
    (The plotting side effect of the source loop has no observable state.) -/
def qgLoop (p : Parms) : ℕ → ℕ → St p.Ny p.Nx → Option (St p.Ny p.Nx)
  | 0, _, st => some st
  | cnt + 1, ii, st => (qgStep p ii st).bind (qgLoop p cnt (ii + 1))

/-- `solve_qg(parms, q0)`: Euler step recording diagnostics at index 0, AB2
    step recording at index 1, then the AB3/filter loop for `ii` in
    `range(3, Nt+1)`; returns the final field and the three diagnostic
    arrays. -/
def solve_qg (p : Parms) (q0 : Mat p.Ny p.Nx) :
    Option (Mat p.Ny p.Nx × List ℝ × List ℝ × List ℝ) :=
  let n := Nt p
  let f0 := flux_qg p q0
  (setIdx (List.replicate n 0) 0 f0.2.1).bind fun energy0 =>
  (setIdx (List.replicate n 0) 0 f0.2.2.1).bind fun enstr0 =>
  (setIdx (List.replicate n 0) 0 f0.2.2.2).bind fun mass0 =>
  let q1 := q0 + p.dt • f0.1
  let f1 := flux_qg p q1
  (setIdx energy0 1 f1.2.1).bind fun energy1 =>
  (setIdx enstr0 1 f1.2.2.1).bind fun enstr1 =>
  (setIdx mass0 1 f1.2.2.2).bind fun mass1 =>
  let q2 := q1 + (0.5 * p.dt) • ((3 : ℝ) • f1.1 - f0.1)
  (qgLoop p (n + 1 - 3) 3 ⟨q2, f1.1, f0.1, energy1, enstr1, mass1⟩).map
    fun st => (st.q, st.energy, st.enstr, st.mass)

/-- The state trajectory of the integrator: `qSeq p q0 n` is the PV field
    after `n` updates (Euler, then AB2, then filtered AB3 steps). -/
def qSeq (p : Parms) (q0 : Mat p.Ny p.Nx) : ℕ → Mat p.Ny p.Nx
  | 0 => q0
  | 1 => q0 + p.dt • fluxF p q0
  | 2 => qSeq p q0 1 + (0.5 * p.dt) • ((3 : ℝ) • fluxF p (qSeq p q0 1) - fluxF p q0)
  | n + 3 => filt p (qSeq p q0 (n + 2) + (p.dt / 12) •
      ((23 : ℝ) • fluxF p (qSeq p q0 (n + 2)) - (16 : ℝ) • fluxF p (qSeq p q0 (n + 1)) +
        (5 : ℝ) • fluxF p (qSeq p q0 n)))

/-- Energy diagnostic of the pre-update field at step `i`. -/
def eDiag (p : Parms) (q0 : Mat p.Ny p.Nx) (i : ℕ) : ℝ := (flux_qg p (qSeq p q0 i)).2.1

/-- Enstrophy diagnostic of the pre-update field at step `i`. -/
def sDiag (p : Parms) (q0 : Mat p.Ny p.Nx) (i : ℕ) : ℝ := (flux_qg p (qSeq p q0 i)).2.2.1

/-- Mass diagnostic of the pre-update field at step `i`. -/
def mDiag (p : Parms) (q0 : Mat p.Ny p.Nx) (i : ℕ) : ℝ := (flux_qg p (qSeq p q0 i)).2.2.2

/-- Diagnostic array filled up to (excluding) index `j`, zeros elsewhere. -/
def upTo (n : ℕ) (g : ℕ → ℝ) (j : ℕ) : List ℝ :=
  (List.range n).map fun i => if i < j then g i else 0

/-- Fully filled diagnostic array of length `n`. -/
def fullList (n : ℕ) (g : ℕ → ℝ) : List ℝ := (List.range n).map g


/-- Spectral PV: `fftn` of the antisymmetric extension. -/
def specPV (p : Parms) (q : Mat p.Ny p.Nx) : CMat (2 * p.Ny) p.Nx := fftn (toC (extend q))

/-- Spectral streamfunction `psie_hat = K2Fi * qe_hat`. -/
def psieH (p : Parms) (q : Mat p.Ny p.Nx) : CMat (2 * p.Ny) p.Nx :=
  had (toC p.K2Fi) (specPV p q)

/-- Physical x-gradient of PV, restricted to the physical domain. -/
def gradxF (p : Parms) (q : Mat p.Ny p.Nx) : Mat p.Ny p.Nx :=
  restrict (reM (ifftn (had p.ikx (specPV p q))))

/-- Physical y-gradient of PV, restricted to the physical domain. -/
def gradyF (p : Parms) (q : Mat p.Ny p.Nx) : Mat p.Ny p.Nx :=
  restrict (reM (ifftn (had p.iky (specPV p q))))

/-- Physical streamfunction, restricted to the physical domain. -/
def psiF (p : Parms) (q : Mat p.Ny p.Nx) : Mat p.Ny p.Nx :=
  restrict (reM (ifftn (psieH p q)))

/-- Physical zonal velocity `u`, restricted to the physical domain. -/
def uF (p : Parms) (q : Mat p.Ny p.Nx) : Mat p.Ny p.Nx :=
  restrict (reM (ifftn (had (-p.iky) (psieH p q))))

/-- Physical meridional velocity `v`, restricted to the physical domain. -/
def vF (p : Parms) (q : Mat p.Ny p.Nx) : Mat p.Ny p.Nx :=
  restrict (reM (ifftn (had p.ikx (psieH p q))))

/-- The quadratic (self-advection) part of the flux: `-(u*q_x + q_y*v)`. -/
def quadPart (p : Parms) (q : Mat p.Ny p.Nx) : Mat p.Ny p.Nx :=
  fun r c => -(uF p q r c * gradxF p q r c + gradyF p q r c * vF p q r c)

/-- Full correctness of a `solve_qg` run: it returns the field after `Nt`
    updates and the three diagnostic arrays of length `Nt`, whose entry `i` is
    the diagnostic of the pre-update field `qSeq i`. -/
def runProp (p : Parms) (q0 : Mat p.Ny p.Nx) : Prop :=
  solve_qg p q0 = some (qSeq p q0 (Nt p), fullList (Nt p) (eDiag p q0),
    fullList (Nt p) (sDiag p q0), fullList (Nt p) (mDiag p q0)) ∧
  (fullList (Nt p) (eDiag p q0)).length = Nt p ∧
  (fullList (Nt p) (sDiag p q0)).length = Nt p ∧
  (fullList (Nt p) (mDiag p q0)).length = Nt p

/-- The AB3 update with spectral filter, written out as the claim describes it:
    antisymmetric extension, forward transform, elementwise multiplication by
    `sfilt`, inverse transform, real part, restriction. -/
def ab3Prop (p : Parms) (q0 : Mat p.Ny p.Nx) (n : ℕ) : Prop :=
  qSeq p q0 (n + 1) =
    restrict (reM (ifftn (had (toC p.sfilt) (fftn (toC (extend (qSeq p q0 n + (p.dt / 12) •
      ((23 : ℝ) • fluxF p (qSeq p q0 n) - (16 : ℝ) • fluxF p (qSeq p q0 (n - 1)) +
        (5 : ℝ) • fluxF p (qSeq p q0 (n - 2))))))))))

/-- One AB3 loop iteration: records diagnostics at `ii-1`, filters the AB3
    update, and rotates the flux history (`NLnm := NLn`, `NLn := NL`). -/
def stepProp (p : Parms) (ii : ℕ) (st : St p.Ny p.Nx) : Prop :=
  qgStep p ii st = some ⟨filt p (st.q + (p.dt / 12) •
      ((23 : ℝ) • fluxF p st.q - (16 : ℝ) • st.NLn + (5 : ℝ) • st.NLnm)),
    fluxF p st.q, st.NLn,
    st.energy.set (ii - 1) (flux_qg p st.q).2.1,
    st.enstr.set (ii - 1) (flux_qg p st.q).2.2.1,
    st.mass.set (ii - 1) (flux_qg p st.q).2.2.2⟩

/-- The two bootstrap updates, exactly as the source performs them (no filter). -/
def bootstrapProp (p : Parms) (q0 : Mat p.Ny p.Nx) : Prop :=
  qSeq p q0 1 = q0 + p.dt • fluxF p q0 ∧
  qSeq p q0 2 = qSeq p q0 1 + (0.5 * p.dt) • ((3 : ℝ) • fluxF p (qSeq p q0 1) - fluxF p q0)

/-- After exactly the two (unfiltered) bootstrap updates, `solve_qg` enters the
    AB3 loop with the history `(F1, F0)` and diagnostics recorded at 0 and 1. -/
def entersLoopProp (p : Parms) (q0 : Mat p.Ny p.Nx) : Prop :=
  solve_qg p q0 = (qgLoop p (Nt p + 1 - 3) 3
    ⟨qSeq p q0 2, fluxF p (qSeq p q0 1), fluxF p q0,
      upTo (Nt p) (eDiag p q0) 2, upTo (Nt p) (sDiag p q0) 2,
      upTo (Nt p) (mDiag p q0) 2⟩).map
    fun st => (st.q, st.energy, st.enstr, st.mass)

/-- Zero-mode handling and absence of a vanishing denominator in the
    PV-inversion kernel built by the constructor. -/
def kernelProp (Nx Ny : ℕ) (Lx Ly g0 H0 f0 beta t0 dt tf : ℝ) (npt : ℕ)
    (hNx : 0 < Nx) (hNy : 0 < Ny) : Prop :=
  (mkParms Nx Ny Lx Ly g0 H0 f0 beta t0 dt tf npt).K2Fi
      (⟨0, by omega⟩ : Fin (2 * Ny)) (⟨0, hNx⟩ : Fin Nx) =
    (if (mkParms Nx Ny Lx Ly g0 H0 f0 beta t0 dt tf npt).F = 0 then 0
      else -1 / (mkParms Nx Ny Lx Ly g0 H0 f0 beta t0 dt tf npt).F) ∧
  ∀ (r : Fin (2 * Ny)) (c : Fin Nx), ¬(r.1 = 0 ∧ c.1 = 0) →
    (kxv Nx Lx c.1) ^ 2 + (kyv Ny Ly r.1) ^ 2 +
      (mkParms Nx Ny Lx Ly g0 H0 f0 beta t0 dt tf npt).F ≠ 0

/-- A run from the zero initial field: everything stays zero, so every
    diagnostic (in particular mass) is constant. -/
def zeroRunProp (p : Parms) : Prop :=
  solve_qg p (0 : Mat p.Ny p.Nx) = some (0, List.replicate (Nt p) 0,
    List.replicate (Nt p) 0, List.replicate (Nt p) 0)

/-- Test configuration on a 2 by 4 grid with `Lx = 2*pi`, `Ly = pi` (so the
    wavenumber arrays are integer-valued), `beta = 0`, `dt = 1`, `tf = 3`. -/
def pEx : Parms := mkParms 4 2 (2 * Real.pi) Real.pi 9.81 1000 1e-4 0 0 1 3 12

/-- Degenerate configuration with `tf = dt`, so `Nt = 1`. -/
def pSmall : Parms := mkParms 1 1 1 1 9.81 1000 1e-4 1e-11 0 1 1 12

/-- Test initial field: ones in the first two columns of the first row. -/
def qEx : Mat 2 4 := fun r c => if r.1 = 0 ∧ c.1 ≤ 1 then 1 else 0

/-- A concrete loop state for witnesses. -/
def st0 : St 2 4 := ⟨qEx, qEx, qEx, [0, 0, 0], [0, 0, 0], [0, 0, 0]⟩

/-- `fftn (toC (extend f))` on the 2 by 4 test grid, in closed form. -/
def fhatT (f : Mat 2 4) : ℕ → ℕ → ℂ := fun k l =>
  let s0 : ℂ := (f 0 0 : ℝ) + (f 1 0 : ℝ)
  let s1 : ℂ := (f 0 1 : ℝ) + (f 1 1 : ℝ)
  let s2 : ℂ := (f 0 2 : ℝ) + (f 1 2 : ℝ)
  let s3 : ℂ := (f 0 3 : ℝ) + (f 1 3 : ℝ)
  let d0 : ℂ := (f 0 0 : ℝ) - (f 1 0 : ℝ)
  let d1 : ℂ := (f 0 1 : ℝ) - (f 1 1 : ℝ)
  let d2 : ℂ := (f 0 2 : ℝ) - (f 1 2 : ℝ)
  let d3 : ℂ := (f 0 3 : ℝ) - (f 1 3 : ℝ)
  let w : ℂ → ℂ → ℂ → ℂ → ℂ := fun x0 x1 x2 x3 =>
    if l = 0 then x0 + x1 + x2 + x3
    else if l = 1 then x0 - Complex.I * x1 - x2 + Complex.I * x3
    else if l = 2 then x0 - x1 + x2 - x3
    else x0 + Complex.I * x1 - x2 - Complex.I * x3
  if k = 0 then 0
  else if k = 1 then (1 - Complex.I) * w s0 s1 s2 s3
  else if k = 2 then 2 * w d0 d1 d2 d3
  else (1 + Complex.I) * w s0 s1 s2 s3

/-- The value `F = 0*(f0/(g0*H0))**2` computed by the constructor for `pEx`. -/
def FEx : ℝ := 0 * ((1e-4 : ℝ) / ((9.81 : ℝ) * (1000 : ℝ))) ^ 2

/-- Spectrum `fftn(extend qEx)` (exact values). -/
def fhatE : ℕ → ℕ → ℂ := fun k l =>
  if k = 0 then
    (if l = 0 then (0 : ℂ)
    else if l = 1 then (0 : ℂ)
    else if l = 2 then (0 : ℂ)
    else (0 : ℂ))
  else if k = 1 then
    (if l = 0 then (2 : ℂ) + (-2 : ℂ) * Complex.I
    else if l = 1 then (-2 : ℂ) * Complex.I
    else if l = 2 then (0 : ℂ)
    else (2 : ℂ))
  else if k = 2 then
    (if l = 0 then (4 : ℂ)
    else if l = 1 then (2 : ℂ) + (-2 : ℂ) * Complex.I
    else if l = 2 then (0 : ℂ)
    else (2 : ℂ) + (2 : ℂ) * Complex.I)
  else
    (if l = 0 then (2 : ℂ) + (2 : ℂ) * Complex.I
    else if l = 1 then (2 : ℂ)
    else if l = 2 then (0 : ℂ)
    else (2 : ℂ) * Complex.I)

/-- Spectrum `fftn(extend q1x)` (exact values). -/
def fhat1 : ℕ → ℕ → ℂ := fun k l =>
  if k = 0 then
    (if l = 0 then (0 : ℂ)
    else if l = 1 then (0 : ℂ)
    else if l = 2 then (0 : ℂ)
    else (0 : ℂ))
  else if k = 1 then
    (if l = 0 then (2 : ℂ) + (-2 : ℂ) * Complex.I
    else if l = 1 then ((-2 : ℂ)/5) + (-2 : ℂ) * Complex.I
    else if l = 2 then ((-3 : ℂ)/20) + ((3 : ℂ)/20) * Complex.I
    else (2 : ℂ) + ((2 : ℂ)/5) * Complex.I)
  else if k = 2 then
    (if l = 0 then (4 : ℂ)
    else if l = 1 then ((7 : ℂ)/4) + ((-9 : ℂ)/4) * Complex.I
    else if l = 2 then (0 : ℂ)
    else ((7 : ℂ)/4) + ((9 : ℂ)/4) * Complex.I)
  else
    (if l = 0 then (2 : ℂ) + (2 : ℂ) * Complex.I
    else if l = 1 then (2 : ℂ) + ((-2 : ℂ)/5) * Complex.I
    else if l = 2 then ((-3 : ℂ)/20) + ((-3 : ℂ)/20) * Complex.I
    else ((-2 : ℂ)/5) + (2 : ℂ) * Complex.I)

/-- Spectrum `fftn(extend q2x)` (exact values). -/
def fhat2 : ℕ → ℕ → ℂ := fun k l =>
  if k = 0 then
    (if l = 0 then (0 : ℂ)
    else if l = 1 then (0 : ℂ)
    else if l = 2 then (0 : ℂ)
    else (0 : ℂ))
  else if k = 1 then
    (if l = 0 then ((3227 : ℂ)/1600) + ((-3227 : ℂ)/1600) * Complex.I
    else if l = 1 then ((-4 : ℂ)/5) + ((-77 : ℂ)/40) * Complex.I
    else if l = 2 then ((-471 : ℂ)/1600) + ((471 : ℂ)/1600) * Complex.I
    else ((77 : ℂ)/40) + ((4 : ℂ)/5) * Complex.I)
  else if k = 2 then
    (if l = 0 then (4 : ℂ)
    else if l = 1 then ((5619 : ℂ)/4000) + ((-4823 : ℂ)/2000) * Complex.I
    else if l = 2 then (0 : ℂ)
    else ((5619 : ℂ)/4000) + ((4823 : ℂ)/2000) * Complex.I)
  else
    (if l = 0 then ((3227 : ℂ)/1600) + ((3227 : ℂ)/1600) * Complex.I
    else if l = 1 then ((77 : ℂ)/40) + ((-4 : ℂ)/5) * Complex.I
    else if l = 2 then ((-471 : ℂ)/1600) + ((-471 : ℂ)/1600) * Complex.I
    else ((-4 : ℂ)/5) + ((77 : ℂ)/40) * Complex.I)

/-- x-gradient of PV for `qEx` (exact values). -/
def qxE : ℕ → ℕ → ℝ := fun r c =>
  if r = 0 then
    (if c = 0 then ((1 : ℝ)/2)
    else if c = 1 then ((-1 : ℝ)/2)
    else if c = 2 then ((-1 : ℝ)/2)
    else ((1 : ℝ)/2))
  else
    (if c = 0 then 0
    else if c = 1 then 0
    else if c = 2 then 0
    else 0)

/-- y-gradient of PV for `qEx` (exact values). -/
def qyE : ℕ → ℕ → ℝ := fun r c =>
  if r = 0 then
    (if c = 0 then ((1 : ℝ)/2)
    else if c = 1 then ((1 : ℝ)/2)
    else if c = 2 then 0
    else 0)
  else
    (if c = 0 then ((-1 : ℝ)/2)
    else if c = 1 then ((-1 : ℝ)/2)
    else if c = 2 then 0
    else 0)

/-- Zonal velocity for `qEx` (exact values). -/
def uE : ℕ → ℕ → ℝ := fun r c =>
  if r = 0 then
    (if c = 0 then ((3 : ℝ)/8)
    else if c = 1 then ((3 : ℝ)/8)
    else if c = 2 then ((1 : ℝ)/8)
    else ((1 : ℝ)/8))
  else
    (if c = 0 then ((-3 : ℝ)/8)
    else if c = 1 then ((-3 : ℝ)/8)
    else if c = 2 then ((-1 : ℝ)/8)
    else ((-1 : ℝ)/8))

/-- Meridional velocity for `qEx` (exact values). -/
def vE : ℕ → ℕ → ℝ := fun r c =>
  if r = 0 then
    (if c = 0 then ((-7 : ℝ)/40)
    else if c = 1 then ((7 : ℝ)/40)
    else if c = 2 then ((7 : ℝ)/40)
    else ((-7 : ℝ)/40))
  else
    (if c = 0 then ((-3 : ℝ)/40)
    else if c = 1 then ((3 : ℝ)/40)
    else if c = 2 then ((3 : ℝ)/40)
    else ((-3 : ℝ)/40))

/-- x-gradient of PV for `q1x` (exact values). -/
def qx1T : ℕ → ℕ → ℝ := fun r c =>
  if r = 0 then
    (if c = 0 then ((93 : ℝ)/160)
    else if c = 1 then ((-67 : ℝ)/160)
    else if c = 2 then ((-93 : ℝ)/160)
    else ((67 : ℝ)/160))
  else
    (if c = 0 then ((3 : ℝ)/160)
    else if c = 1 then ((3 : ℝ)/160)
    else if c = 2 then ((-3 : ℝ)/160)
    else ((-3 : ℝ)/160))

/-- y-gradient of PV for `q1x` (exact values). -/
def qy1T : ℕ → ℕ → ℝ := fun r c =>
  if r = 0 then
    (if c = 0 then ((69 : ℝ)/160)
    else if c = 1 then ((91 : ℝ)/160)
    else if c = 2 then ((1 : ℝ)/32)
    else ((-1 : ℝ)/32))
  else
    (if c = 0 then ((-69 : ℝ)/160)
    else if c = 1 then ((-91 : ℝ)/160)
    else if c = 2 then ((-1 : ℝ)/32)
    else ((1 : ℝ)/32))

/-- Zonal velocity for `q1x` (exact values). -/
def u1T : ℕ → ℕ → ℝ := fun r c =>
  if r = 0 then
    (if c = 0 then ((277 : ℝ)/800)
    else if c = 1 then ((323 : ℝ)/800)
    else if c = 2 then ((117 : ℝ)/800)
    else ((83 : ℝ)/800))
  else
    (if c = 0 then ((-277 : ℝ)/800)
    else if c = 1 then ((-323 : ℝ)/800)
    else if c = 2 then ((-117 : ℝ)/800)
    else ((-83 : ℝ)/800))

/-- Meridional velocity for `q1x` (exact values). -/
def v1T : ℕ → ℕ → ℝ := fun r c =>
  if r = 0 then
    (if c = 0 then ((-33 : ℝ)/160)
    else if c = 1 then ((23 : ℝ)/160)
    else if c = 2 then ((33 : ℝ)/160)
    else ((-23 : ℝ)/160))
  else
    (if c = 0 then ((-3 : ℝ)/32)
    else if c = 1 then ((9 : ℝ)/160)
    else if c = 2 then ((3 : ℝ)/32)
    else ((-9 : ℝ)/160))

/-- Streamfunction for `q1x` (exact values). -/
def psi1T : ℕ → ℕ → ℝ := fun r c =>
  if r = 0 then
    (if c = 0 then ((-181 : ℝ)/400)
    else if c = 1 then ((-209 : ℝ)/400)
    else if c = 2 then ((-33 : ℝ)/200)
    else ((-11 : ℝ)/100))
  else
    (if c = 0 then ((-6 : ℝ)/25)
    else if c = 1 then ((-57 : ℝ)/200)
    else if c = 2 then ((-51 : ℝ)/400)
    else ((-39 : ℝ)/400))

/-- Streamfunction for `q2x` (exact values). -/
def psi2T : ℕ → ℕ → ℝ := fun r c =>
  if r = 0 then
    (if c = 0 then ((-66029 : ℝ)/160000)
    else if c = 1 then ((-88411 : ℝ)/160000)
    else if c = 2 then ((-32291 : ℝ)/160000)
    else ((-14619 : ℝ)/160000))
  else
    (if c = 0 then ((-34791 : ℝ)/160000)
    else if c = 1 then ((-49119 : ℝ)/160000)
    else if c = 2 then ((-23529 : ℝ)/160000)
    else ((-13911 : ℝ)/160000))

/-- Flux field of the test input `qEx` (exact values). -/
def N0x : Mat 2 4 := fun r c =>
  if r.1 = 0 then
    (if c.1 = 0 then ((-1 : ℝ)/10)
    else if c.1 = 1 then ((1 : ℝ)/10)
    else if c.1 = 2 then ((1 : ℝ)/16)
    else ((-1 : ℝ)/16))
  else
    (if c.1 = 0 then ((-3 : ℝ)/80)
    else if c.1 = 1 then ((3 : ℝ)/80)
    else if c.1 = 2 then (0 : ℝ)
    else (0 : ℝ))

/-- The field after the Euler step on `qEx` with dt = 1. -/
def q1x : Mat 2 4 := fun r c =>
  if r.1 = 0 then
    (if c.1 = 0 then ((9 : ℝ)/10)
    else if c.1 = 1 then ((11 : ℝ)/10)
    else if c.1 = 2 then ((1 : ℝ)/16)
    else ((-1 : ℝ)/16))
  else
    (if c.1 = 0 then ((-3 : ℝ)/80)
    else if c.1 = 1 then ((3 : ℝ)/80)
    else if c.1 = 2 then (0 : ℝ)
    else (0 : ℝ))

/-- Flux field of `q1x` (exact values). -/
def N1x : Mat 2 4 := fun r c =>
  if r.1 = 0 then
    (if c.1 = 0 then ((-1797 : ℝ)/16000)
    else if c.1 = 1 then ((1397 : ℝ)/16000)
    else if c.1 = 2 then ((1257 : ℝ)/16000)
    else ((-767 : ℝ)/16000))
  else
    (if c.1 = 0 then ((-543 : ℝ)/16000)
    else if c.1 = 1 then ((633 : ℝ)/16000)
    else if c.1 = 2 then ((3 : ℝ)/16000)
    else ((-3 : ℝ)/16000))

/-- The field after the AB2 step (exact values). -/
def q2x : Mat 2 4 := fun r c =>
  if r.1 = 0 then
    (if c.1 = 0 then ((25009 : ℝ)/32000)
    else if c.1 = 1 then ((37791 : ℝ)/32000)
    else if c.1 = 2 then ((4771 : ℝ)/32000)
    else ((-3301 : ℝ)/32000))
  else
    (if c.1 = 0 then ((-2229 : ℝ)/32000)
    else if c.1 = 1 then ((2499 : ℝ)/32000)
    else if c.1 = 2 then ((9 : ℝ)/32000)
    else ((-9 : ℝ)/32000))



lemma restrict_extend {Ny Nx : ℕ} (q : Mat Ny Nx) : restrict (extend q) = q := by
  funext r c
  have h : r.1 < Ny := r.isLt
  simp [restrict, extend, h]

lemma setIdx_some {l : List ℝ} {i : ℕ} (x : ℝ) (h : i < l.length) :
    setIdx l i x = some (l.set i x) := by
  simp [setIdx, h]

lemma upTo_length (n : ℕ) (g : ℕ → ℝ) (j : ℕ) : (upTo n g j).length = n := by
  simp [upTo]

lemma upTo_zero (n : ℕ) (g : ℕ → ℝ) : upTo n g 0 = List.replicate n 0 := by
  apply List.ext_getElem
  · simp [upTo]
  · intro i h1 h2
    simp [upTo]

lemma upTo_set (n : ℕ) (g : ℕ → ℝ) (j : ℕ) (h : j < n) :
    (upTo n g j).set j (g j) = upTo n g (j + 1) := by
  apply List.ext_getElem
  · simp [upTo]
  · intro i h1 h2
    rw [List.getElem_set]
    by_cases hij : j = i
    · subst hij
      simp [upTo, Nat.lt_succ_self]
    · by_cases hi : i < j
      · have hi2 : i < j + 1 := by omega
        simp [upTo, hij, hi, hi2]
      · have hi2 : ¬ i < j + 1 := by omega
        simp [upTo, hij, hi, hi2]

lemma upTo_full (n : ℕ) (g : ℕ → ℝ) (j : ℕ) (h : n ≤ j) : upTo n g j = fullList n g := by
  simp only [upTo, fullList]
  apply List.map_congr_left
  intro i hi
  rw [List.mem_range] at hi
  rw [if_pos (by omega)]

lemma qSeq_step (p : Parms) (q0 : Mat p.Ny p.Nx) (ii : ℕ) (h : 3 ≤ ii) :
    qSeq p q0 ii = filt p (qSeq p q0 (ii - 1) + (p.dt / 12) •
      ((23 : ℝ) • fluxF p (qSeq p q0 (ii - 1)) - (16 : ℝ) • fluxF p (qSeq p q0 (ii - 2)) +
        (5 : ℝ) • fluxF p (qSeq p q0 (ii - 3)))) := by
  obtain ⟨m, rfl⟩ : ∃ m, ii = m + 3 := ⟨ii - 3, by omega⟩
  have e1 : m + 3 - 1 = m + 2 := rfl
  have e2 : m + 3 - 2 = m + 1 := rfl
  have e3 : m + 3 - 3 = m := rfl
  rw [e1, e2, e3, qSeq]

lemma qgStep_eq (p : Parms) (ii : ℕ) (st : St p.Ny p.Nx)
    (he : ii - 1 < st.energy.length) (hs : ii - 1 < st.enstr.length)
    (hm : ii - 1 < st.mass.length) :
    qgStep p ii st = some ⟨filt p (st.q + (p.dt / 12) •
        ((23 : ℝ) • fluxF p st.q - (16 : ℝ) • st.NLn + (5 : ℝ) • st.NLnm)),
      fluxF p st.q, st.NLn,
      st.energy.set (ii - 1) (flux_qg p st.q).2.1,
      st.enstr.set (ii - 1) (flux_qg p st.q).2.2.1,
      st.mass.set (ii - 1) (flux_qg p st.q).2.2.2⟩ := by
  simp only [qgStep, setIdx_some _ he, setIdx_some _ hs, setIdx_some _ hm, Option.bind_some]
  rfl

lemma flux_qg_fst (p : Parms) (q : Mat p.Ny p.Nx) :
    (flux_qg p q).1 = fun r c =>
      -(uF p q r c + p.U) * gradxF p q r c - (gradyF p q r c + p.Q_y) * vF p q r c := rfl

lemma flux_qg_energy (p : Parms) (q : Mat p.Ny p.Nx) :
    (flux_qg p q).2.1 = 0.5 * meanM (fun r c => uF p q r c ^ 2 + vF p q r c ^ 2) +
      meanM (fun r c => p.F * psiF p q r c ^ 2) := rfl

lemma flux_qg_enstr (p : Parms) (q : Mat p.Ny p.Nx) :
    (flux_qg p q).2.2.1 = meanM (fun r c => q r c ^ 2) := rfl

lemma flux_qg_mass (p : Parms) (q : Mat p.Ny p.Nx) :
    (flux_qg p q).2.2.2 = meanM (psiF p q) := rfl

lemma fluxF_apply (p : Parms) (q : Mat p.Ny p.Nx) (r : Fin p.Ny) (c : Fin p.Nx) :
    fluxF p q r c =
      -(uF p q r c + p.U) * gradxF p q r c - (gradyF p q r c + p.Q_y) * vF p q r c := rfl


lemma extend_smul {Ny Nx : ℕ} (c : ℝ) (q : Mat Ny Nx) :
    extend (c • q) = c • extend q := by
  funext r c2
  by_cases h : r.1 < Ny <;>
    simp [extend, h, Pi.smul_apply, smul_eq_mul, mul_neg]

lemma toC_smul {m n : ℕ} (c : ℝ) (A : Mat m n) :
    toC (c • A) = (c : ℂ) • toC A := by
  funext r c2
  simp [toC, Pi.smul_apply, smul_eq_mul]

lemma fftn_smul {m n : ℕ} (z : ℂ) (A : CMat m n) :
    fftn (z • A) = z • fftn A := by
  funext k l
  simp only [fftn, Pi.smul_apply, smul_eq_mul]
  rw [Finset.mul_sum]
  apply Finset.sum_congr rfl
  intro r _
  rw [Finset.mul_sum]
  apply Finset.sum_congr rfl
  intro c2 _
  ring

lemma ifftn_smul {m n : ℕ} (z : ℂ) (A : CMat m n) :
    ifftn (z • A) = z • ifftn A := by
  funext r c2
  simp only [ifftn, Pi.smul_apply, smul_eq_mul]
  have h : (∑ k, ∑ l, z * A k l * dftW m (-((k.1 * r.1 : ℕ) : ℤ)) *
        dftW n (-((l.1 * c2.1 : ℕ) : ℤ))) =
      z * ∑ k, ∑ l, A k l * dftW m (-((k.1 * r.1 : ℕ) : ℤ)) *
        dftW n (-((l.1 * c2.1 : ℕ) : ℤ)) := by
    rw [Finset.mul_sum]
    apply Finset.sum_congr rfl
    intro k _
    rw [Finset.mul_sum]
    apply Finset.sum_congr rfl
    intro l _
    ring
  rw [h]
  ring

lemma had_smul {m n : ℕ} (z : ℂ) (A B : CMat m n) :
    had A (z • B) = z • had A B := by
  funext r c2
  simp [had, Pi.smul_apply, smul_eq_mul]
  ring

lemma reM_real_smul {m n : ℕ} (c : ℝ) (A : CMat m n) :
    reM ((c : ℂ) • A) = c • reM A := by
  funext r c2
  simp [reM, Pi.smul_apply, smul_eq_mul, Complex.mul_re]

lemma restrict_smul {Ny Nx : ℕ} (c : ℝ) (A : Mat (2 * Ny) Nx) :
    restrict (c • A) = c • restrict A := rfl

lemma specPV_smul (p : Parms) (c : ℝ) (q : Mat p.Ny p.Nx) :
    specPV p (c • q) = (c : ℂ) • specPV p q := by
  rw [specPV, extend_smul, toC_smul, fftn_smul, specPV]

lemma psieH_smul (p : Parms) (c : ℝ) (q : Mat p.Ny p.Nx) :
    psieH p (c • q) = (c : ℂ) • psieH p q := by
  rw [psieH, specPV_smul, had_smul, psieH]

lemma gradxF_smul (p : Parms) (c : ℝ) (q : Mat p.Ny p.Nx) :
    gradxF p (c • q) = c • gradxF p q := by
  rw [gradxF, specPV_smul, had_smul, ifftn_smul, reM_real_smul, restrict_smul, gradxF]

lemma gradyF_smul (p : Parms) (c : ℝ) (q : Mat p.Ny p.Nx) :
    gradyF p (c • q) = c • gradyF p q := by
  rw [gradyF, specPV_smul, had_smul, ifftn_smul, reM_real_smul, restrict_smul, gradyF]

lemma psiF_smul (p : Parms) (c : ℝ) (q : Mat p.Ny p.Nx) :
    psiF p (c • q) = c • psiF p q := by
  rw [psiF, psieH_smul, ifftn_smul, reM_real_smul, restrict_smul, psiF]

lemma uF_smul (p : Parms) (c : ℝ) (q : Mat p.Ny p.Nx) :
    uF p (c • q) = c • uF p q := by
  rw [uF, psieH_smul, had_smul, ifftn_smul, reM_real_smul, restrict_smul, uF]

lemma vF_smul (p : Parms) (c : ℝ) (q : Mat p.Ny p.Nx) :
    vF p (c • q) = c • vF p q := by
  rw [vF, psieH_smul, had_smul, ifftn_smul, reM_real_smul, restrict_smul, vF]

lemma flux_scale (p : Parms) (q : Mat p.Ny p.Nx) (c : ℝ) :
    fluxF p (c • q) = c • fluxF p q + (c ^ 2 - c) • quadPart p q := by
  funext r c2
  simp only [Pi.add_apply, Pi.smul_apply, smul_eq_mul]
  rw [fluxF_apply, fluxF_apply, uF_smul, gradxF_smul, gradyF_smul, vF_smul]
  simp only [Pi.smul_apply, smul_eq_mul, quadPart]
  ring

lemma enstr_scale (p : Parms) (q : Mat p.Ny p.Nx) (c : ℝ) :
    (flux_qg p (c • q)).2.2.1 = c ^ 2 * (flux_qg p q).2.2.1 := by
  rw [flux_qg_enstr, flux_qg_enstr]
  simp only [meanM, Pi.smul_apply, smul_eq_mul, mul_pow]
  rw [← mul_div_assoc, Finset.mul_sum]
  congr 1
  apply Finset.sum_congr rfl
  intro r _
  rw [Finset.mul_sum]

lemma extend_zero {Ny Nx : ℕ} : extend (0 : Mat Ny Nx) = 0 := by
  funext r c
  by_cases h : r.1 < Ny <;> simp [extend, h]

lemma fftn_zero {m n : ℕ} : fftn (0 : CMat m n) = 0 := by
  funext k l
  simp [fftn, toC]

lemma toC_zero {m n : ℕ} : toC (0 : Mat m n) = 0 := by
  funext r c
  simp [toC]

lemma had_zero {m n : ℕ} (A : CMat m n) : had A (0 : CMat m n) = 0 := by
  funext r c
  simp [had]

lemma ifftn_zero {m n : ℕ} : ifftn (0 : CMat m n) = 0 := by
  funext r c
  simp [ifftn]

lemma reM_zero {m n : ℕ} : reM (0 : CMat m n) = 0 := by
  funext r c
  simp [reM]

lemma restrict_zero {Ny Nx : ℕ} : restrict (0 : Mat (2 * Ny) Nx) = 0 := rfl

lemma meanM_zero {m n : ℕ} : meanM (0 : Mat m n) = 0 := by
  simp [meanM]

lemma specPV_zero (p : Parms) : specPV p (0 : Mat p.Ny p.Nx) = 0 := by
  rw [specPV, extend_zero, toC_zero, fftn_zero]

lemma psieH_zero (p : Parms) : psieH p (0 : Mat p.Ny p.Nx) = 0 := by
  rw [psieH, specPV_zero, had_zero]

lemma gradxF_zero (p : Parms) : gradxF p (0 : Mat p.Ny p.Nx) = 0 := by
  rw [gradxF, specPV_zero, had_zero, ifftn_zero, reM_zero, restrict_zero]

lemma gradyF_zero (p : Parms) : gradyF p (0 : Mat p.Ny p.Nx) = 0 := by
  rw [gradyF, specPV_zero, had_zero, ifftn_zero, reM_zero, restrict_zero]

lemma psiF_zero (p : Parms) : psiF p (0 : Mat p.Ny p.Nx) = 0 := by
  rw [psiF, psieH_zero, ifftn_zero, reM_zero, restrict_zero]

lemma uF_zero (p : Parms) : uF p (0 : Mat p.Ny p.Nx) = 0 := by
  rw [uF, psieH_zero, had_zero, ifftn_zero, reM_zero, restrict_zero]

lemma vF_zero (p : Parms) : vF p (0 : Mat p.Ny p.Nx) = 0 := by
  rw [vF, psieH_zero, had_zero, ifftn_zero, reM_zero, restrict_zero]

lemma fluxF_zero (p : Parms) : fluxF p (0 : Mat p.Ny p.Nx) = 0 := by
  funext r c
  rw [fluxF_apply, uF_zero, gradxF_zero, gradyF_zero, vF_zero]
  simp

lemma flux_qg_zero (p : Parms) : flux_qg p (0 : Mat p.Ny p.Nx) = (0, 0, 0, 0) := by
  refine Prod.ext (fluxF_zero p) (Prod.ext ?_ (Prod.ext ?_ ?_))
  · show (flux_qg p 0).2.1 = 0
    rw [flux_qg_energy, uF_zero, vF_zero, psiF_zero]
    have h1 : (fun r c => (0 : Mat p.Ny p.Nx) r c ^ 2 + (0 : Mat p.Ny p.Nx) r c ^ 2) =
        (0 : Mat p.Ny p.Nx) := by
      funext r c
      simp
    have h2 : (fun r c => p.F * (0 : Mat p.Ny p.Nx) r c ^ 2) = (0 : Mat p.Ny p.Nx) := by
      funext r c
      simp
    rw [h1, h2, meanM_zero]
    norm_num
  · show (flux_qg p 0).2.2.1 = 0
    rw [flux_qg_enstr]
    have h1 : (fun r c => (0 : Mat p.Ny p.Nx) r c ^ 2) = (0 : Mat p.Ny p.Nx) := by
      funext r c
      simp
    rw [h1, meanM_zero]
  · show (flux_qg p 0).2.2.2 = 0
    rw [flux_qg_mass, psiF_zero, meanM_zero]

lemma filt_zero (p : Parms) : filt p (0 : Mat p.Ny p.Nx) = 0 := by
  rw [filt, extend_zero, toC_zero, fftn_zero, had_zero, ifftn_zero, reM_zero, restrict_zero]

lemma qSeq_zero (p : Parms) : ∀ n, qSeq p (0 : Mat p.Ny p.Nx) n = 0 := by
  intro n
  induction n using Nat.strong_induction_on with
  | _ n IH =>
    match n with
    | 0 => rfl
    | 1 =>
      rw [qSeq, fluxF_zero]
      simp
    | 2 =>
      rw [qSeq, IH 1 (by omega), fluxF_zero]
      simp
    | m + 3 =>
      rw [qSeq, IH (m + 2) (by omega), IH (m + 1) (by omega), IH m (by omega),
        fluxF_zero]
      simpa using filt_zero p


lemma replicate_set2 (n : ℕ) (g : ℕ → ℝ) (h : 2 ≤ n) :
    ((List.replicate n (0 : ℝ)).set 0 (g 0)).set 1 (g 1) = upTo n g 2 := by
  rw [← upTo_zero n g, upTo_set _ _ _ (by omega), upTo_set _ _ _ (by omega)]

lemma qgLoop_inv (p : Parms) (q0 : Mat p.Ny p.Nx) :
    ∀ cnt ii, 3 ≤ ii → ii + cnt = Nt p + 1 →
    qgLoop p cnt ii
      (St.mk (qSeq p q0 (ii - 1)) (fluxF p (qSeq p q0 (ii - 2)))
        (fluxF p (qSeq p q0 (ii - 3)))
        (upTo (Nt p) (eDiag p q0) (ii - 1)) (upTo (Nt p) (sDiag p q0) (ii - 1))
        (upTo (Nt p) (mDiag p q0) (ii - 1))) =
    some (St.mk (qSeq p q0 (Nt p)) (fluxF p (qSeq p q0 (Nt p - 1)))
        (fluxF p (qSeq p q0 (Nt p - 2))) (fullList (Nt p) (eDiag p q0))
        (fullList (Nt p) (sDiag p q0)) (fullList (Nt p) (mDiag p q0))) := by
  intro cnt
  induction cnt with
  | zero =>
    intro ii h3 hsum
    obtain rfl : ii = Nt p + 1 := by omega
    rw [qgLoop]
    rw [show Nt p + 1 - 1 = Nt p from rfl, show Nt p + 1 - 2 = Nt p - 1 from rfl,
      show Nt p + 1 - 3 = Nt p - 2 from rfl]
    rw [upTo_full _ _ _ (le_refl _), upTo_full _ _ _ (le_refl _),
      upTo_full _ _ _ (le_refl _)]
  | succ k IH =>
    intro ii h3 hsum
    rw [qgLoop]
    have hlen_e : ii - 1 < (upTo (Nt p) (eDiag p q0) (ii - 1)).length := by
      rw [upTo_length]
      omega
    have hlen_s : ii - 1 < (upTo (Nt p) (sDiag p q0) (ii - 1)).length := by
      rw [upTo_length]
      omega
    have hlen_m : ii - 1 < (upTo (Nt p) (mDiag p q0) (ii - 1)).length := by
      rw [upTo_length]
      omega
    rw [qgStep_eq p ii _ hlen_e hlen_s hlen_m]
    dsimp only
    rw [Option.some_bind]
    rw [show (flux_qg p (qSeq p q0 (ii - 1))).2.1 = eDiag p q0 (ii - 1) from rfl,
      show (flux_qg p (qSeq p q0 (ii - 1))).2.2.1 = sDiag p q0 (ii - 1) from rfl,
      show (flux_qg p (qSeq p q0 (ii - 1))).2.2.2 = mDiag p q0 (ii - 1) from rfl]
    rw [upTo_set _ _ _ (by omega), upTo_set _ _ _ (by omega), upTo_set _ _ _ (by omega)]
    rw [← qSeq_step p q0 ii h3]
    rw [show ii - 1 + 1 = ii by omega]
    exact IH (ii + 1) (by omega) (by omega)

lemma solve_qg_spec (p : Parms) (q0 : Mat p.Ny p.Nx) (h : 2 ≤ Nt p) :
    solve_qg p q0 = some (qSeq p q0 (Nt p), fullList (Nt p) (eDiag p q0),
      fullList (Nt p) (sDiag p q0), fullList (Nt p) (mDiag p q0)) := by
  have h0 : (0 : ℕ) < (List.replicate (Nt p) (0 : ℝ)).length := by
    simp
    omega
  simp only [solve_qg]
  rw [show q0 + p.dt • (flux_qg p q0).1 = qSeq p q0 1 from rfl]
  rw [show qSeq p q0 1 + (0.5 * p.dt) • ((3 : ℝ) • (flux_qg p (qSeq p q0 1)).1 -
      (flux_qg p q0).1) = qSeq p q0 2 from rfl]
  rw [show (flux_qg p (qSeq p q0 1)).1 = fluxF p (qSeq p q0 1) from rfl]
  rw [show (flux_qg p q0).1 = fluxF p (qSeq p q0 0) from rfl]
  rw [show (flux_qg p q0).2.1 = eDiag p q0 0 from rfl,
    show (flux_qg p q0).2.2.1 = sDiag p q0 0 from rfl,
    show (flux_qg p q0).2.2.2 = mDiag p q0 0 from rfl,
    show (flux_qg p (qSeq p q0 1)).2.1 = eDiag p q0 1 from rfl,
    show (flux_qg p (qSeq p q0 1)).2.2.1 = sDiag p q0 1 from rfl,
    show (flux_qg p (qSeq p q0 1)).2.2.2 = mDiag p q0 1 from rfl]
  rw [setIdx_some _ h0, Option.some_bind, setIdx_some _ h0, Option.some_bind,
    setIdx_some _ h0, Option.some_bind]
  have h1e : (1 : ℕ) < ((List.replicate (Nt p) (0 : ℝ)).set 0 (eDiag p q0 0)).length := by
    simp
    omega
  have h1s : (1 : ℕ) < ((List.replicate (Nt p) (0 : ℝ)).set 0 (sDiag p q0 0)).length := by
    simp
    omega
  have h1m : (1 : ℕ) < ((List.replicate (Nt p) (0 : ℝ)).set 0 (mDiag p q0 0)).length := by
    simp
    omega
  rw [setIdx_some _ h1e, Option.some_bind, setIdx_some _ h1s, Option.some_bind,
    setIdx_some _ h1m, Option.some_bind]
  rw [replicate_set2 (Nt p) (eDiag p q0) h, replicate_set2 (Nt p) (sDiag p q0) h,
    replicate_set2 (Nt p) (mDiag p q0) h]
  have hloop := qgLoop_inv p q0 (Nt p + 1 - 3) 3 (by omega) (by omega)
  norm_num at hloop
  rw [show qSeq p q0 0 = q0 from rfl] at hloop
  rw [show fluxF p (qSeq p q0 0) = fluxF p q0 from rfl]
  rw [hloop]
  rfl

lemma fullList_length (n : ℕ) (g : ℕ → ℝ) : (fullList n g).length = n := by
  simp [fullList]

lemma fullList_zero (n : ℕ) (g : ℕ → ℝ) (hg : ∀ i, g i = 0) :
    fullList n g = List.replicate n 0 := by
  apply List.ext_getElem
  · simp [fullList]
  · intro i h1 h2
    simp [fullList, hg]

lemma eDiag_zero (p : Parms) (i : ℕ) : eDiag p (0 : Mat p.Ny p.Nx) i = 0 := by
  rw [eDiag, qSeq_zero, flux_qg_zero]

lemma sDiag_zero (p : Parms) (i : ℕ) : sDiag p (0 : Mat p.Ny p.Nx) i = 0 := by
  rw [sDiag, qSeq_zero, flux_qg_zero]

lemma mDiag_zero (p : Parms) (i : ℕ) : mDiag p (0 : Mat p.Ny p.Nx) i = 0 := by
  rw [mDiag, qSeq_zero, flux_qg_zero]

lemma zeroRun (p : Parms) (h : 2 ≤ Nt p) : zeroRunProp p := by
  unfold zeroRunProp
  rw [solve_qg_spec p 0 h, qSeq_zero,
    fullList_zero _ _ (eDiag_zero p), fullList_zero _ _ (sDiag_zero p),
    fullList_zero _ _ (mDiag_zero p)]


lemma fv0 : ((0 : Fin 4) : ℕ) = 0 := rfl

lemma fv1 : ((1 : Fin 4) : ℕ) = 1 := rfl

lemma fv2 : ((2 : Fin 4) : ℕ) = 2 := rfl

lemma fv3 : ((3 : Fin 4) : ℕ) = 3 := rfl

lemma gv0 : ((0 : Fin 2) : ℕ) = 0 := rfl

lemma gv1 : ((1 : Fin 2) : ℕ) = 1 := rfl

lemma extend24 (f : Mat 2 4) : extend f = fun r c =>
    if r.1 = 0 then f 0 c else if r.1 = 1 then f 1 c
    else if r.1 = 2 then -f 1 c else -f 0 c := by
  funext r c
  fin_cases r <;> norm_num [extend]

lemma exp_base : Complex.exp (-(2 * (Real.pi : ℂ) * Complex.I) / 4) = -Complex.I := by
  have h2 : (-(2 * (Real.pi : ℂ) * Complex.I) / 4) = ((-(Real.pi / 2) : ℝ) : ℂ) * Complex.I := by
    push_cast
    ring
  rw [h2, Complex.exp_mul_I, ← Complex.ofReal_cos, ← Complex.ofReal_sin]
  rw [Real.cos_neg, Real.sin_neg, Real.cos_pi_div_two, Real.sin_pi_div_two]
  simp

lemma negI_ne : (-Complex.I) ≠ 0 := by
  simp [Complex.ext_iff]

lemma negI_zpow_four : (-Complex.I) ^ (4 : ℤ) = 1 := by
  rw [show (4 : ℤ) = ((4 : ℕ) : ℤ) from rfl, zpow_natCast,
    show (4 : ℕ) = 2 * 2 from rfl, pow_mul]
  norm_num [pow_two]

lemma dftW_four (j : ℤ) :
    dftW 4 j = if j % 4 = 0 then 1 else if j % 4 = 1 then -Complex.I
      else if j % 4 = 2 then -1 else Complex.I := by
  have hmain : dftW 4 j = (-Complex.I) ^ j := by
    rw [dftW, show (-(2 * (Real.pi : ℂ) * Complex.I * (j : ℂ)) / ((4 : ℕ) : ℂ)) =
      (j : ℂ) * (-(2 * (Real.pi : ℂ) * Complex.I) / 4) by push_cast; ring]
    rw [Complex.exp_int_mul, exp_base]
  have hsplit : (-Complex.I) ^ j = (-Complex.I) ^ (j % 4) := by
    conv_lhs => rw [show j = 4 * (j / 4) + j % 4 from (Int.ediv_add_emod j 4).symm]
    rw [zpow_add₀ negI_ne, zpow_mul, negI_zpow_four, one_zpow, one_mul]
  rw [hmain, hsplit]
  have h4 : j % 4 = 0 ∨ j % 4 = 1 ∨ j % 4 = 2 ∨ j % 4 = 3 := by omega
  rcases h4 with h | h | h | h <;> rw [h]
  · norm_num
  · norm_num
  · rw [show (2 : ℤ) = ((2 : ℕ) : ℤ) from rfl, zpow_natCast]
    norm_num [pow_two]
  · rw [show (3 : ℤ) = ((3 : ℕ) : ℤ) from rfl, zpow_natCast]
    norm_num [pow_succ, pow_two]

lemma fhat_eval (f : Mat 2 4) (k : Fin 4) (l : Fin 4) :
    specPV pEx f k l = fhatT f k.1 l.1 := by
  have h : specPV pEx f k l = ∑ r : Fin 4, ∑ c : Fin 4,
      toC (extend f) r c * dftW 4 ((k.1 * r.1 : ℕ) : ℤ) * dftW 4 ((l.1 * c.1 : ℕ) : ℤ) := rfl
  rw [h, extend24]
  fin_cases k <;> fin_cases l <;>
    · simp only [Fin.sum_univ_four, Fin.isValue, Fin.val_zero, Fin.val_one, Fin.val_two, toC, fhatT]
      norm_num [dftW_four, fv0, fv1, fv2, fv3]
      ring

lemma kxv_eval (c : ℕ) : kxv 4 (2 * Real.pi) c = if c ≤ 2 then (c : ℝ) else (c : ℝ) - 4 := by
  rw [kxv, div_self (by positivity : (2 * Real.pi : ℝ) ≠ 0), one_mul]
  norm_num

lemma kyv_eval (r : ℕ) : kyv 2 Real.pi r = if r ≤ 2 then (r : ℝ) else (r : ℝ) - 4 := by
  rw [kyv, div_self Real.pi_ne_zero, one_mul]
  norm_num

lemma hK2 (k l : Fin 4) : pEx.K2Fi k l = (if k.1 = 0 ∧ l.1 = 0 then 0
    else -1 / ((kxv 4 (2 * Real.pi) l.1) ^ 2 + (kyv 2 Real.pi k.1) ^ 2)) := by
  have h : pEx.K2Fi k l = (if k.1 = 0 ∧ l.1 = 0 then (if FEx = 0 then (0 : ℝ) else -1 / FEx)
      else -1 / ((kxv 4 (2 * Real.pi) l.1) ^ 2 + (kyv 2 Real.pi k.1) ^ 2 + FEx)) := rfl
  have hF : FEx = 0 := by norm_num [FEx]
  by_cases hkl : k.1 = 0 ∧ l.1 = 0
  · rw [h, if_pos hkl, if_pos hF, if_pos hkl]
  · rw [h, if_neg hkl, if_neg hkl, hF, add_zero]

lemma hikx (k l : Fin 4) : pEx.ikx k l = Complex.I * ((kxv 4 (2 * Real.pi) l.1 : ℝ) : ℂ) := rfl

lemma hiky (k l : Fin 4) : pEx.iky k l = Complex.I * ((kyv 2 Real.pi k.1 : ℝ) : ℂ) := rfl

lemma pEx_U : pEx.U = 0 := rfl

lemma pEx_dt : pEx.dt = 1 := rfl

lemma pEx_Qy : pEx.Q_y = 0 := by
  have h : pEx.Q_y = FEx * 0 + 0 := rfl
  rw [h]
  norm_num

lemma pEx_Nt : Nt pEx = 3 := by
  rw [Nt, show pEx.tf = (3 : ℝ) from rfl, show pEx.dt = (1 : ℝ) from rfl, div_one,
    show (3 : ℝ) = ((3 : ℤ) : ℝ) by norm_num, Int.floor_intCast]
  rfl

lemma pSmall_Nt : Nt pSmall = 1 := by
  rw [Nt, show pSmall.tf = (1 : ℝ) from rfl, show pSmall.dt = (1 : ℝ) from rfl, div_one,
    show (1 : ℝ) = ((1 : ℤ) : ℝ) by norm_num, Int.floor_intCast]
  rfl

lemma pEx_Ny_pos : 0 < pEx.Ny := by decide

lemma pEx_Ny_one : 1 < pEx.Ny := by decide

lemma pEx_Nx_0 : 0 < pEx.Nx := by decide

lemma pEx_Nx_1 : 1 < pEx.Nx := by decide

lemma pEx_Nx_2 : 2 < pEx.Nx := by decide

lemma pEx_Nx_3 : 3 < pEx.Nx := by decide

lemma sum2Ny (g : Fin pEx.Ny → ℝ) :
    ∑ r, g r = g ⟨0, pEx_Ny_pos⟩ + g ⟨1, pEx_Ny_one⟩ := by
  show ∑ r : Fin 2, g r = _
  rw [Fin.sum_univ_two]
  rfl

lemma sum4Nx (g : Fin pEx.Nx → ℝ) :
    ∑ c, g c = g ⟨0, pEx_Nx_0⟩ + g ⟨1, pEx_Nx_1⟩ + g ⟨2, pEx_Nx_2⟩ + g ⟨3, pEx_Nx_3⟩ := by
  show ∑ c : Fin 4, g c = _
  rw [Fin.sum_univ_four]
  rfl

lemma fhat_qEx (k l : Fin 4) : specPV pEx qEx k l = fhatE k.1 l.1 := by
  rw [fhat_eval]
  fin_cases k <;> fin_cases l <;>
    · norm_num [fhatT, fhatE, qEx, fv0, fv1, fv2, fv3, gv0, gv1, Complex.ext_iff,
        Complex.add_re, Complex.add_im, Complex.sub_re, Complex.sub_im, Complex.mul_re,
        Complex.mul_im, Complex.neg_re, Complex.neg_im, Complex.I_re, Complex.I_im,
        Complex.ofReal_re, Complex.ofReal_im, Complex.one_re, Complex.one_im]

lemma fhat_q1x (k l : Fin 4) : specPV pEx q1x k l = fhat1 k.1 l.1 := by
  rw [fhat_eval]
  fin_cases k <;> fin_cases l <;>
    · norm_num [fhatT, fhat1, q1x, fv0, fv1, fv2, fv3, gv0, gv1, Complex.ext_iff,
        Complex.add_re, Complex.add_im, Complex.sub_re, Complex.sub_im, Complex.mul_re,
        Complex.mul_im, Complex.neg_re, Complex.neg_im, Complex.I_re, Complex.I_im,
        Complex.ofReal_re, Complex.ofReal_im, Complex.one_re, Complex.one_im]

lemma fhat_q2x (k l : Fin 4) : specPV pEx q2x k l = fhat2 k.1 l.1 := by
  rw [fhat_eval]
  fin_cases k <;> fin_cases l <;>
    · norm_num [fhatT, fhat2, q2x, fv0, fv1, fv2, fv3, gv0, gv1, Complex.ext_iff,
        Complex.add_re, Complex.add_im, Complex.sub_re, Complex.sub_im, Complex.mul_re,
        Complex.mul_im, Complex.neg_re, Complex.neg_im, Complex.I_re, Complex.I_im,
        Complex.ofReal_re, Complex.ofReal_im, Complex.one_re, Complex.one_im]

lemma gradx_qEx (r : Fin pEx.Ny) (c : Fin pEx.Nx) :
    gradxF pEx qEx r c = qxE r.1 c.1 := by
  have h : gradxF pEx qEx r c =
      (Complex.ofReal ((1 : ℝ) / (((4 : ℕ) : ℝ) * ((4 : ℕ) : ℝ))) *
      ∑ k : Fin 4, ∑ l : Fin 4, pEx.ikx k l * specPV pEx qEx k l *
        dftW 4 (-((k.1 * r.1 : ℕ) : ℤ)) * dftW 4 (-((l.1 * c.1 : ℕ) : ℤ))).re := rfl
  rw [h]
  simp only [fhat_qEx, hikx, kxv_eval]
  have hr : r.1 = 0 ∨ r.1 = 1 := by
    have h2 : r.1 < 2 := r.isLt
    omega
  have hc : c.1 = 0 ∨ c.1 = 1 ∨ c.1 = 2 ∨ c.1 = 3 := by
    have h2 : c.1 < 4 := c.isLt
    omega
  rcases hr with hr | hr <;> rcases hc with hc | hc | hc | hc <;> rw [hr, hc] <;>
    · simp only [Fin.sum_univ_four, fv0, fv1, fv2, fv3, fhatE, qxE]
      norm_num [dftW_four, Complex.add_re, Complex.add_im, Complex.sub_re, Complex.sub_im,
        Complex.mul_re, Complex.mul_im, Complex.neg_re, Complex.neg_im, Complex.I_re,
        Complex.I_im, Complex.ofReal_re, Complex.ofReal_im, Complex.one_re, Complex.one_im]

lemma grady_qEx (r : Fin pEx.Ny) (c : Fin pEx.Nx) :
    gradyF pEx qEx r c = qyE r.1 c.1 := by
  have h : gradyF pEx qEx r c =
      (Complex.ofReal ((1 : ℝ) / (((4 : ℕ) : ℝ) * ((4 : ℕ) : ℝ))) *
      ∑ k : Fin 4, ∑ l : Fin 4, pEx.iky k l * specPV pEx qEx k l *
        dftW 4 (-((k.1 * r.1 : ℕ) : ℤ)) * dftW 4 (-((l.1 * c.1 : ℕ) : ℤ))).re := rfl
  rw [h]
  simp only [fhat_qEx, hiky, kyv_eval]
  have hr : r.1 = 0 ∨ r.1 = 1 := by
    have h2 : r.1 < 2 := r.isLt
    omega
  have hc : c.1 = 0 ∨ c.1 = 1 ∨ c.1 = 2 ∨ c.1 = 3 := by
    have h2 : c.1 < 4 := c.isLt
    omega
  rcases hr with hr | hr <;> rcases hc with hc | hc | hc | hc <;> rw [hr, hc] <;>
    · simp only [Fin.sum_univ_four, fv0, fv1, fv2, fv3, fhatE, qyE]
      norm_num [dftW_four, Complex.add_re, Complex.add_im, Complex.sub_re, Complex.sub_im,
        Complex.mul_re, Complex.mul_im, Complex.neg_re, Complex.neg_im, Complex.I_re,
        Complex.I_im, Complex.ofReal_re, Complex.ofReal_im, Complex.one_re, Complex.one_im]

lemma u_qEx (r : Fin pEx.Ny) (c : Fin pEx.Nx) :
    uF pEx qEx r c = uE r.1 c.1 := by
  have h : uF pEx qEx r c =
      (Complex.ofReal ((1 : ℝ) / (((4 : ℕ) : ℝ) * ((4 : ℕ) : ℝ))) *
      ∑ k : Fin 4, ∑ l : Fin 4, -pEx.iky k l * (Complex.ofReal (pEx.K2Fi k l) * specPV pEx qEx k l) *
        dftW 4 (-((k.1 * r.1 : ℕ) : ℤ)) * dftW 4 (-((l.1 * c.1 : ℕ) : ℤ))).re := rfl
  rw [h]
  simp only [fhat_qEx, hK2, hiky, kxv_eval, kyv_eval]
  have hr : r.1 = 0 ∨ r.1 = 1 := by
    have h2 : r.1 < 2 := r.isLt
    omega
  have hc : c.1 = 0 ∨ c.1 = 1 ∨ c.1 = 2 ∨ c.1 = 3 := by
    have h2 : c.1 < 4 := c.isLt
    omega
  rcases hr with hr | hr <;> rcases hc with hc | hc | hc | hc <;> rw [hr, hc] <;>
    · simp only [Fin.sum_univ_four, fv0, fv1, fv2, fv3, fhatE, uE]
      norm_num [dftW_four, Complex.add_re, Complex.add_im, Complex.sub_re, Complex.sub_im,
        Complex.mul_re, Complex.mul_im, Complex.neg_re, Complex.neg_im, Complex.I_re,
        Complex.I_im, Complex.ofReal_re, Complex.ofReal_im, Complex.one_re, Complex.one_im]

lemma v_qEx (r : Fin pEx.Ny) (c : Fin pEx.Nx) :
    vF pEx qEx r c = vE r.1 c.1 := by
  have h : vF pEx qEx r c =
      (Complex.ofReal ((1 : ℝ) / (((4 : ℕ) : ℝ) * ((4 : ℕ) : ℝ))) *
      ∑ k : Fin 4, ∑ l : Fin 4, pEx.ikx k l * (Complex.ofReal (pEx.K2Fi k l) * specPV pEx qEx k l) *
        dftW 4 (-((k.1 * r.1 : ℕ) : ℤ)) * dftW 4 (-((l.1 * c.1 : ℕ) : ℤ))).re := rfl
  rw [h]
  simp only [fhat_qEx, hK2, hikx, kxv_eval, kyv_eval]
  have hr : r.1 = 0 ∨ r.1 = 1 := by
    have h2 : r.1 < 2 := r.isLt
    omega
  have hc : c.1 = 0 ∨ c.1 = 1 ∨ c.1 = 2 ∨ c.1 = 3 := by
    have h2 : c.1 < 4 := c.isLt
    omega
  rcases hr with hr | hr <;> rcases hc with hc | hc | hc | hc <;> rw [hr, hc] <;>
    · simp only [Fin.sum_univ_four, fv0, fv1, fv2, fv3, fhatE, vE]
      norm_num [dftW_four, Complex.add_re, Complex.add_im, Complex.sub_re, Complex.sub_im,
        Complex.mul_re, Complex.mul_im, Complex.neg_re, Complex.neg_im, Complex.I_re,
        Complex.I_im, Complex.ofReal_re, Complex.ofReal_im, Complex.one_re, Complex.one_im]

lemma gradx_q1x (r : Fin pEx.Ny) (c : Fin pEx.Nx) :
    gradxF pEx q1x r c = qx1T r.1 c.1 := by
  have h : gradxF pEx q1x r c =
      (Complex.ofReal ((1 : ℝ) / (((4 : ℕ) : ℝ) * ((4 : ℕ) : ℝ))) *
      ∑ k : Fin 4, ∑ l : Fin 4, pEx.ikx k l * specPV pEx q1x k l *
        dftW 4 (-((k.1 * r.1 : ℕ) : ℤ)) * dftW 4 (-((l.1 * c.1 : ℕ) : ℤ))).re := rfl
  rw [h]
  simp only [fhat_q1x, hikx, kxv_eval]
  have hr : r.1 = 0 ∨ r.1 = 1 := by
    have h2 : r.1 < 2 := r.isLt
    omega
  have hc : c.1 = 0 ∨ c.1 = 1 ∨ c.1 = 2 ∨ c.1 = 3 := by
    have h2 : c.1 < 4 := c.isLt
    omega
  rcases hr with hr | hr <;> rcases hc with hc | hc | hc | hc <;> rw [hr, hc] <;>
    · simp only [Fin.sum_univ_four, fv0, fv1, fv2, fv3, fhat1, qx1T]
      norm_num [dftW_four, Complex.add_re, Complex.add_im, Complex.sub_re, Complex.sub_im,
        Complex.mul_re, Complex.mul_im, Complex.neg_re, Complex.neg_im, Complex.I_re,
        Complex.I_im, Complex.ofReal_re, Complex.ofReal_im, Complex.one_re, Complex.one_im]

lemma grady_q1x (r : Fin pEx.Ny) (c : Fin pEx.Nx) :
    gradyF pEx q1x r c = qy1T r.1 c.1 := by
  have h : gradyF pEx q1x r c =
      (Complex.ofReal ((1 : ℝ) / (((4 : ℕ) : ℝ) * ((4 : ℕ) : ℝ))) *
      ∑ k : Fin 4, ∑ l : Fin 4, pEx.iky k l * specPV pEx q1x k l *
        dftW 4 (-((k.1 * r.1 : ℕ) : ℤ)) * dftW 4 (-((l.1 * c.1 : ℕ) : ℤ))).re := rfl
  rw [h]
  simp only [fhat_q1x, hiky, kyv_eval]
  have hr : r.1 = 0 ∨ r.1 = 1 := by
    have h2 : r.1 < 2 := r.isLt
    omega
  have hc : c.1 = 0 ∨ c.1 = 1 ∨ c.1 = 2 ∨ c.1 = 3 := by
    have h2 : c.1 < 4 := c.isLt
    omega
  rcases hr with hr | hr <;> rcases hc with hc | hc | hc | hc <;> rw [hr, hc] <;>
    · simp only [Fin.sum_univ_four, fv0, fv1, fv2, fv3, fhat1, qy1T]
      norm_num [dftW_four, Complex.add_re, Complex.add_im, Complex.sub_re, Complex.sub_im,
        Complex.mul_re, Complex.mul_im, Complex.neg_re, Complex.neg_im, Complex.I_re,
        Complex.I_im, Complex.ofReal_re, Complex.ofReal_im, Complex.one_re, Complex.one_im]

lemma u_q1x (r : Fin pEx.Ny) (c : Fin pEx.Nx) :
    uF pEx q1x r c = u1T r.1 c.1 := by
  have h : uF pEx q1x r c =
      (Complex.ofReal ((1 : ℝ) / (((4 : ℕ) : ℝ) * ((4 : ℕ) : ℝ))) *
      ∑ k : Fin 4, ∑ l : Fin 4, -pEx.iky k l * (Complex.ofReal (pEx.K2Fi k l) * specPV pEx q1x k l) *
        dftW 4 (-((k.1 * r.1 : ℕ) : ℤ)) * dftW 4 (-((l.1 * c.1 : ℕ) : ℤ))).re := rfl
  rw [h]
  simp only [fhat_q1x, hK2, hiky, kxv_eval, kyv_eval]
  have hr : r.1 = 0 ∨ r.1 = 1 := by
    have h2 : r.1 < 2 := r.isLt
    omega
  have hc : c.1 = 0 ∨ c.1 = 1 ∨ c.1 = 2 ∨ c.1 = 3 := by
    have h2 : c.1 < 4 := c.isLt
    omega
  rcases hr with hr | hr <;> rcases hc with hc | hc | hc | hc <;> rw [hr, hc] <;>
    · simp only [Fin.sum_univ_four, fv0, fv1, fv2, fv3, fhat1, u1T]
      norm_num [dftW_four, Complex.add_re, Complex.add_im, Complex.sub_re, Complex.sub_im,
        Complex.mul_re, Complex.mul_im, Complex.neg_re, Complex.neg_im, Complex.I_re,
        Complex.I_im, Complex.ofReal_re, Complex.ofReal_im, Complex.one_re, Complex.one_im]

lemma v_q1x (r : Fin pEx.Ny) (c : Fin pEx.Nx) :
    vF pEx q1x r c = v1T r.1 c.1 := by
  have h : vF pEx q1x r c =
      (Complex.ofReal ((1 : ℝ) / (((4 : ℕ) : ℝ) * ((4 : ℕ) : ℝ))) *
      ∑ k : Fin 4, ∑ l : Fin 4, pEx.ikx k l * (Complex.ofReal (pEx.K2Fi k l) * specPV pEx q1x k l) *
        dftW 4 (-((k.1 * r.1 : ℕ) : ℤ)) * dftW 4 (-((l.1 * c.1 : ℕ) : ℤ))).re := rfl
  rw [h]
  simp only [fhat_q1x, hK2, hikx, kxv_eval, kyv_eval]
  have hr : r.1 = 0 ∨ r.1 = 1 := by
    have h2 : r.1 < 2 := r.isLt
    omega
  have hc : c.1 = 0 ∨ c.1 = 1 ∨ c.1 = 2 ∨ c.1 = 3 := by
    have h2 : c.1 < 4 := c.isLt
    omega
  rcases hr with hr | hr <;> rcases hc with hc | hc | hc | hc <;> rw [hr, hc] <;>
    · simp only [Fin.sum_univ_four, fv0, fv1, fv2, fv3, fhat1, v1T]
      norm_num [dftW_four, Complex.add_re, Complex.add_im, Complex.sub_re, Complex.sub_im,
        Complex.mul_re, Complex.mul_im, Complex.neg_re, Complex.neg_im, Complex.I_re,
        Complex.I_im, Complex.ofReal_re, Complex.ofReal_im, Complex.one_re, Complex.one_im]

lemma psi_q1x (r : Fin pEx.Ny) (c : Fin pEx.Nx) :
    psiF pEx q1x r c = psi1T r.1 c.1 := by
  have h : psiF pEx q1x r c =
      (Complex.ofReal ((1 : ℝ) / (((4 : ℕ) : ℝ) * ((4 : ℕ) : ℝ))) *
      ∑ k : Fin 4, ∑ l : Fin 4, Complex.ofReal (pEx.K2Fi k l) * specPV pEx q1x k l *
        dftW 4 (-((k.1 * r.1 : ℕ) : ℤ)) * dftW 4 (-((l.1 * c.1 : ℕ) : ℤ))).re := rfl
  rw [h]
  simp only [fhat_q1x, hK2, kxv_eval, kyv_eval]
  have hr : r.1 = 0 ∨ r.1 = 1 := by
    have h2 : r.1 < 2 := r.isLt
    omega
  have hc : c.1 = 0 ∨ c.1 = 1 ∨ c.1 = 2 ∨ c.1 = 3 := by
    have h2 : c.1 < 4 := c.isLt
    omega
  rcases hr with hr | hr <;> rcases hc with hc | hc | hc | hc <;> rw [hr, hc] <;>
    · simp only [Fin.sum_univ_four, fv0, fv1, fv2, fv3, fhat1, psi1T]
      norm_num [dftW_four, Complex.add_re, Complex.add_im, Complex.sub_re, Complex.sub_im,
        Complex.mul_re, Complex.mul_im, Complex.neg_re, Complex.neg_im, Complex.I_re,
        Complex.I_im, Complex.ofReal_re, Complex.ofReal_im, Complex.one_re, Complex.one_im]

lemma psi_q2x (r : Fin pEx.Ny) (c : Fin pEx.Nx) :
    psiF pEx q2x r c = psi2T r.1 c.1 := by
  have h : psiF pEx q2x r c =
      (Complex.ofReal ((1 : ℝ) / (((4 : ℕ) : ℝ) * ((4 : ℕ) : ℝ))) *
      ∑ k : Fin 4, ∑ l : Fin 4, Complex.ofReal (pEx.K2Fi k l) * specPV pEx q2x k l *
        dftW 4 (-((k.1 * r.1 : ℕ) : ℤ)) * dftW 4 (-((l.1 * c.1 : ℕ) : ℤ))).re := rfl
  rw [h]
  simp only [fhat_q2x, hK2, kxv_eval, kyv_eval]
  have hr : r.1 = 0 ∨ r.1 = 1 := by
    have h2 : r.1 < 2 := r.isLt
    omega
  have hc : c.1 = 0 ∨ c.1 = 1 ∨ c.1 = 2 ∨ c.1 = 3 := by
    have h2 : c.1 < 4 := c.isLt
    omega
  rcases hr with hr | hr <;> rcases hc with hc | hc | hc | hc <;> rw [hr, hc] <;>
    · simp only [Fin.sum_univ_four, fv0, fv1, fv2, fv3, fhat2, psi2T]
      norm_num [dftW_four, Complex.add_re, Complex.add_im, Complex.sub_re, Complex.sub_im,
        Complex.mul_re, Complex.mul_im, Complex.neg_re, Complex.neg_im, Complex.I_re,
        Complex.I_im, Complex.ofReal_re, Complex.ofReal_im, Complex.one_re, Complex.one_im]


lemma kxv_ne (Nx : ℕ) (Lx : ℝ) (hLx : 0 < Lx) (c : ℕ) (hc : c ≠ 0) (hcN : c < Nx) :
    kxv Nx Lx c ≠ 0 := by
  rw [kxv]
  apply mul_ne_zero
  · positivity
  · split_ifs with h
    · exact Nat.cast_ne_zero.mpr hc
    · have hlt : (c : ℝ) < (Nx : ℝ) := Nat.cast_lt.mpr hcN
      intro h0
      linarith

lemma kyv_ne (Ny : ℕ) (Ly : ℝ) (hLy : 0 < Ly) (r : ℕ) (hr : r ≠ 0) (hrN : r < 2 * Ny) :
    kyv Ny Ly r ≠ 0 := by
  rw [kyv]
  apply mul_ne_zero
  · positivity
  · split_ifs with h
    · exact Nat.cast_ne_zero.mpr hr
    · have hlt : (r : ℝ) < 2 * (Ny : ℝ) := by exact_mod_cast hrN
      intro h0
      linarith

lemma fluxF_qEx : fluxF pEx qEx = N0x := by
  funext r c
  rw [fluxF_apply, u_qEx, gradx_qEx, grady_qEx, v_qEx, pEx_U, pEx_Qy]
  have hr : r.1 = 0 ∨ r.1 = 1 := by
    have h2 : r.1 < 2 := r.isLt
    omega
  have hc : c.1 = 0 ∨ c.1 = 1 ∨ c.1 = 2 ∨ c.1 = 3 := by
    have h2 : c.1 < 4 := c.isLt
    omega
  rcases hr with hr | hr <;> rcases hc with hc | hc | hc | hc <;>
    norm_num [N0x, uE, qxE, qyE, vE, hr, hc]

lemma hq1M : qSeq pEx qEx 1 = q1x := by
  funext r c
  have h : qSeq pEx qEx 1 r c = qEx r c + pEx.dt * fluxF pEx qEx r c := rfl
  rw [h, pEx_dt, one_mul, congrFun (congrFun fluxF_qEx r) c]
  have hr : r.1 = 0 ∨ r.1 = 1 := by
    have h2 : r.1 < 2 := r.isLt
    omega
  have hc : c.1 = 0 ∨ c.1 = 1 ∨ c.1 = 2 ∨ c.1 = 3 := by
    have h2 : c.1 < 4 := c.isLt
    omega
  rcases hr with hr | hr <;> rcases hc with hc | hc | hc | hc <;>
    norm_num [qEx, N0x, q1x, hr, hc]

lemma fluxF_q1x : fluxF pEx q1x = N1x := by
  funext r c
  rw [fluxF_apply, u_q1x, gradx_q1x, grady_q1x, v_q1x, pEx_U, pEx_Qy]
  have hr : r.1 = 0 ∨ r.1 = 1 := by
    have h2 : r.1 < 2 := r.isLt
    omega
  have hc : c.1 = 0 ∨ c.1 = 1 ∨ c.1 = 2 ∨ c.1 = 3 := by
    have h2 : c.1 < 4 := c.isLt
    omega
  rcases hr with hr | hr <;> rcases hc with hc | hc | hc | hc <;>
    norm_num [N1x, u1T, qx1T, qy1T, v1T, hr, hc]

lemma hq2M : qSeq pEx qEx 2 = q2x := by
  funext r c
  have h : qSeq pEx qEx 2 r c = qSeq pEx qEx 1 r c + (0.5 * pEx.dt) *
      ((3 : ℝ) * fluxF pEx (qSeq pEx qEx 1) r c - fluxF pEx qEx r c) := rfl
  rw [h, hq1M, pEx_dt, mul_one, congrFun (congrFun fluxF_q1x r) c,
    congrFun (congrFun fluxF_qEx r) c]
  have hr : r.1 = 0 ∨ r.1 = 1 := by
    have h2 : r.1 < 2 := r.isLt
    omega
  have hc : c.1 = 0 ∨ c.1 = 1 ∨ c.1 = 2 ∨ c.1 = 3 := by
    have h2 : c.1 < 4 := c.isLt
    omega
  rcases hr with hr | hr <;> rcases hc with hc | hc | hc | hc <;>
    norm_num [q1x, N0x, N1x, q2x, hr, hc]

lemma castNy : ((pEx.Ny : ℕ) : ℝ) = 2 := by
  norm_num [show pEx.Ny = 2 from rfl]

lemma castNx : ((pEx.Nx : ℕ) : ℝ) = 4 := by
  norm_num [show pEx.Nx = 4 from rfl]

lemma mass_q1 : mDiag pEx qEx 1 = -(1 / 4) := by
  have h : mDiag pEx qEx 1 = meanM (psiF pEx (qSeq pEx qEx 1)) := rfl
  rw [h, hq1M]
  have h2 : meanM (psiF pEx q1x) = (∑ r, ∑ c, psiF pEx q1x r c) /
      ((pEx.Ny : ℝ) * (pEx.Nx : ℝ)) := rfl
  rw [h2, sum2Ny, sum4Nx, sum4Nx, castNy, castNx]
  simp only [psi_q1x]
  norm_num [psi1T]

lemma mass_q2 : mDiag pEx qEx 2 = -(3227 / 12800) := by
  have h : mDiag pEx qEx 2 = meanM (psiF pEx (qSeq pEx qEx 2)) := rfl
  rw [h, hq2M]
  have h2 : meanM (psiF pEx q2x) = (∑ r, ∑ c, psiF pEx q2x r c) /
      ((pEx.Ny : ℝ) * (pEx.Nx : ℝ)) := rfl
  rw [h2, sum2Ny, sum4Nx, sum4Nx, castNy, castNx]
  simp only [psi_q2x]
  norm_num [psi2T]

lemma quad_qEx_01 :
    quadPart pEx qEx (⟨0, pEx_Ny_pos⟩ : Fin pEx.Ny) (⟨1, pEx_Nx_1⟩ : Fin pEx.Nx) = 1 / 10 := by
  have h : quadPart pEx qEx (⟨0, pEx_Ny_pos⟩ : Fin pEx.Ny) (⟨1, pEx_Nx_1⟩ : Fin pEx.Nx) =
      -(uF pEx qEx ⟨0, pEx_Ny_pos⟩ ⟨1, pEx_Nx_1⟩ * gradxF pEx qEx ⟨0, pEx_Ny_pos⟩ ⟨1, pEx_Nx_1⟩ +
        gradyF pEx qEx ⟨0, pEx_Ny_pos⟩ ⟨1, pEx_Nx_1⟩ *
          vF pEx qEx ⟨0, pEx_Ny_pos⟩ ⟨1, pEx_Nx_1⟩) := rfl
  rw [h, u_qEx, gradx_qEx, grady_qEx, v_qEx]
  norm_num [uE, qxE, qyE, vE]

/-- C1: (corrected) for every configuration with at least two time steps
    (`2 ≤ Nt`), `solve_qg` returns the field after `Nt` updates together with
    the three diagnostic sequences of length `Nt`, each entry `i` being the
    diagnostic of the pre-update field `q_i`; when `Nt < 2` the source instead
    crashes with an IndexError while storing the AB2 diagnostics (modelled as
    returning `none`). -/
theorem C1_main (p : Parms) (q0 : Mat p.Ny p.Nx) (h : 2 ≤ Nt p) : runProp p q0 :=
  ⟨solve_qg_spec p q0 h, fullList_length _ _, fullList_length _ _, fullList_length _ _⟩

/-- C1 witness: the amended claim holds on the concrete 2 by 4 test run. -/
theorem C1_witness : 2 ≤ Nt pEx ∧ runProp pEx qEx :=
  ⟨by rw [pEx_Nt]; decide, C1_main pEx qEx (by rw [pEx_Nt]; decide)⟩

/-- C1 counterexample: with `tf = dt` (so `Nt = 1 < 2`) `solve_qg` does not
    return a result: the write of the AB2 diagnostics at index 1 is out of
    bounds, an IndexError. -/
theorem C1_counterexample : solve_qg pSmall (0 : Mat pSmall.Ny pSmall.Nx) = none := by
  simp only [solve_qg, pSmall_Nt]
  simp [setIdx]

/-- C2: every step `n ≥ 2` is the AB3 update `q_{n+1} = q_n +
    dt/12*(23*F_n - 16*F_{n-1} + 5*F_{n-2})` followed by the spectral filter
    (antisymmetric extension, forward transform, multiplication by `sfilt`,
    inverse transform, real part, restriction); each loop iteration records
    the diagnostics of the pre-update field at `ii-1` and rotates the flux
    history (`NLnm := NLn`, `NLn := NL`). -/
theorem C2_main (p : Parms) (q0 : Mat p.Ny p.Nx) (n : ℕ) (h : 2 ≤ n) :
    ab3Prop p q0 n ∧
    ∀ (ii : ℕ) (st : St p.Ny p.Nx), ii - 1 < st.energy.length →
      ii - 1 < st.enstr.length → ii - 1 < st.mass.length → stepProp p ii st := by
  constructor
  · unfold ab3Prop
    rw [qSeq_step p q0 (n + 1) (by omega)]
    rw [show n + 1 - 1 = n from rfl, show n + 1 - 2 = n - 1 by omega,
      show n + 1 - 3 = n - 2 by omega]
    rfl
  · intro ii st he hs hm
    exact qgStep_eq p ii st he hs hm

/-- C2 witness: the AB3-plus-filter step law at the concrete step `n = 2`. -/
theorem C2_witness : (2 : ℕ) ≤ 2 ∧ (ab3Prop pEx qEx 2 ∧
    ∀ (ii : ℕ) (st : St pEx.Ny pEx.Nx), ii - 1 < st.energy.length →
      ii - 1 < st.enstr.length → ii - 1 < st.mass.length → stepProp pEx ii st) :=
  ⟨by decide, C2_main pEx qEx 2 (by decide)⟩

/-- C3: the bootstrap performs exactly two unfiltered updates, Euler
    (`q1 = q0 + dt*F0`) then AB2 (`q2 = q1 + dt/2*(3*F1 - F0)`), and
    `solve_qg` then enters the AB3 loop at `ii = 3` with flux history
    `(F1, F0)` and the diagnostics of `q0` and `q1` recorded at 0 and 1. -/
theorem C3_main (p : Parms) (q0 : Mat p.Ny p.Nx) (h : 2 ≤ Nt p) :
    bootstrapProp p q0 ∧ entersLoopProp p q0 := by
  refine ⟨⟨rfl, rfl⟩, ?_⟩
  unfold entersLoopProp
  have h0 : (0 : ℕ) < (List.replicate (Nt p) (0 : ℝ)).length := by
    simp
    omega
  simp only [solve_qg]
  rw [show q0 + p.dt • (flux_qg p q0).1 = qSeq p q0 1 from rfl]
  rw [show qSeq p q0 1 + (0.5 * p.dt) • ((3 : ℝ) • (flux_qg p (qSeq p q0 1)).1 -
      (flux_qg p q0).1) = qSeq p q0 2 from rfl]
  rw [show (flux_qg p (qSeq p q0 1)).1 = fluxF p (qSeq p q0 1) from rfl]
  rw [show (flux_qg p q0).1 = fluxF p q0 from rfl]
  rw [show (flux_qg p q0).2.1 = eDiag p q0 0 from rfl,
    show (flux_qg p q0).2.2.1 = sDiag p q0 0 from rfl,
    show (flux_qg p q0).2.2.2 = mDiag p q0 0 from rfl,
    show (flux_qg p (qSeq p q0 1)).2.1 = eDiag p q0 1 from rfl,
    show (flux_qg p (qSeq p q0 1)).2.2.1 = sDiag p q0 1 from rfl,
    show (flux_qg p (qSeq p q0 1)).2.2.2 = mDiag p q0 1 from rfl]
  rw [setIdx_some _ h0, Option.some_bind, setIdx_some _ h0, Option.some_bind,
    setIdx_some _ h0, Option.some_bind]
  have h1e : (1 : ℕ) < ((List.replicate (Nt p) (0 : ℝ)).set 0 (eDiag p q0 0)).length := by
    simp
    omega
  have h1s : (1 : ℕ) < ((List.replicate (Nt p) (0 : ℝ)).set 0 (sDiag p q0 0)).length := by
    simp
    omega
  have h1m : (1 : ℕ) < ((List.replicate (Nt p) (0 : ℝ)).set 0 (mDiag p q0 0)).length := by
    simp
    omega
  rw [setIdx_some _ h1e, Option.some_bind, setIdx_some _ h1s, Option.some_bind,
    setIdx_some _ h1m, Option.some_bind]
  rw [replicate_set2 (Nt p) (eDiag p q0) h, replicate_set2 (Nt p) (sDiag p q0) h,
    replicate_set2 (Nt p) (mDiag p q0) h]

/-- C3 witness: the bootstrap law on the concrete 2 by 4 test run. -/
theorem C3_witness : 2 ≤ Nt pEx ∧ (bootstrapProp pEx qEx ∧ entersLoopProp pEx qEx) :=
  ⟨by rw [pEx_Nt]; decide, C3_main pEx qEx (by rw [pEx_Nt]; decide)⟩

/-- C4: the flux field of `flux_qg` is computed by the claimed pipeline:
    gradients are inverse transforms of `i*kx` and `i*ky` times the spectrum of
    the antisymmetric extension, the spectral streamfunction is `K2Fi` times
    that spectrum, velocities come from `-i*ky` and `i*kx` times it, all
    restricted to the top `Ny` rows, and the flux is
    `-(u + U)*q_x - (q_y + Q_y)*v` elementwise. -/
theorem C4_main (p : Parms) (q : Mat p.Ny p.Nx) :
    gradxF p q = restrict (reM (ifftn (had p.ikx (fftn (toC (extend q)))))) ∧
    gradyF p q = restrict (reM (ifftn (had p.iky (fftn (toC (extend q)))))) ∧
    psieH p q = had (toC p.K2Fi) (fftn (toC (extend q))) ∧
    uF p q = restrict (reM (ifftn (had (-p.iky) (psieH p q)))) ∧
    vF p q = restrict (reM (ifftn (had p.ikx (psieH p q)))) ∧
    (flux_qg p q).1 = fun r c =>
      -(uF p q r c + p.U) * gradxF p q r c - (gradyF p q r c + p.Q_y) * vF p q r c :=
  ⟨rfl, rfl, rfl, rfl, rfl, rfl⟩

/-- C5: the three scalars returned by `flux_qg` are
    `energy = 0.5*mean(u^2 + v^2) + mean(F*psi^2)` on the restricted domain,
    `enstrophy = mean(q^2)` on the input field, and `mass = mean(psi)` on the
    restricted domain. -/
theorem C5_main (p : Parms) (q : Mat p.Ny p.Nx) :
    (flux_qg p q).2.1 = 0.5 * meanM (fun r c => uF p q r c ^ 2 + vF p q r c ^ 2) +
      meanM (fun r c => p.F * psiF p q r c ^ 2) ∧
    (flux_qg p q).2.2.1 = meanM (fun r c => q r c ^ 2) ∧
    (flux_qg p q).2.2.2 = meanM (psiF p q) :=
  ⟨rfl, rfl, rfl⟩

/-- C6: for every configuration with positive grid sizes and positive domain
    lengths, the inversion kernel `K2Fi` built by the constructor has its zero
    wavenumber entry equal to `0` when `F = 0` and `-1/F` otherwise, and no
    other entry divides by zero: the denominator `kx^2 + ky^2 + F` is nonzero
    away from the zero mode. -/
theorem C6_main (Nx Ny : ℕ) (Lx Ly g0 H0 f0 beta t0 dt tf : ℝ) (npt : ℕ)
    (hNx : 0 < Nx) (hNy : 0 < Ny) (hLx : 0 < Lx) (hLy : 0 < Ly) :
    kernelProp Nx Ny Lx Ly g0 H0 f0 beta t0 dt tf npt hNx hNy := by
  constructor
  · rfl
  · intro r c hrc
    have hF : (mkParms Nx Ny Lx Ly g0 H0 f0 beta t0 dt tf npt).F = 0 := zero_mul _
    rw [hF, add_zero]
    by_cases hc : c.1 = 0
    · have hr0 : r.1 ≠ 0 := fun hx => hrc ⟨hx, hc⟩
      have h1 : kyv Ny Ly r.1 ≠ 0 := kyv_ne Ny Ly hLy r.1 hr0 r.isLt
      have h2 : 0 < kxv Nx Lx c.1 ^ 2 + kyv Ny Ly r.1 ^ 2 := by positivity
      exact ne_of_gt h2
    · have h1 : kxv Nx Lx c.1 ≠ 0 := kxv_ne Nx Lx hLx c.1 hc c.isLt
      have h2 : 0 < kxv Nx Lx c.1 ^ 2 + kyv Ny Ly r.1 ^ 2 := by positivity
      exact ne_of_gt h2

/-- C6 witness: the kernel property on the concrete 2 by 4 configuration. -/
theorem C6_witness : kernelProp 4 2 (2 * Real.pi) Real.pi 9.81 1000 1e-4 0 0 1 3 12
    (by norm_num) (by norm_num) :=
  C6_main 4 2 (2 * Real.pi) Real.pi 9.81 1000 1e-4 0 0 1 3 12 (by norm_num) (by norm_num)
    (by positivity) (by positivity)

/-- C7: (corrected) exact mass conservation after the bootstrap fails for a
    general initial field, but a run from the zero initial field keeps every
    diagnostic, in particular mass, exactly constant. -/
theorem C7_main (p : Parms) (h : 2 ≤ Nt p) : zeroRunProp p := zeroRun p h

/-- C7 witness: the zero-field run of the concrete 2 by 4 configuration. -/
theorem C7_witness : 2 ≤ Nt pEx ∧ zeroRunProp pEx :=
  ⟨by rw [pEx_Nt]; decide, C7_main pEx (by rw [pEx_Nt]; decide)⟩

/-- C7 counterexample: on the default configuration (`F = 0`, `U = 0`) with
    `beta = 0`, `Lx = 2*pi`, `Ly = pi`, `dt = 1`, `tf = 3` and the 0/1-valued
    initial field `qEx`, the mass diagnostics of the returned run differ:
    `mass[1] = -1/4` but `mass[2] = -3227/12800`, refuting exact conservation
    `mass[n] = mass[1]` for `1 ≤ n < Nt` under exact real arithmetic. -/
theorem C7_counterexample :
    (solve_qg pEx qEx).map (fun out => (out.2.2.2[1]?, out.2.2.2[2]?)) =
      some ((some (-(1 / 4)) : Option ℝ), (some (-(3227 / 12800)) : Option ℝ)) ∧
    (-(1 / 4) : ℝ) ≠ -(3227 / 12800) := by
  constructor
  · rw [solve_qg_spec pEx qEx (by rw [pEx_Nt]; decide)]
    have h3 : fullList (Nt pEx) (mDiag pEx qEx) =
        [mDiag pEx qEx 0, mDiag pEx qEx 1, mDiag pEx qEx 2] := by
      rw [pEx_Nt]
      rfl
    simp only [Option.map_some']
    rw [h3, mass_q1, mass_q2]
    simp
  · norm_num

/-- C8: (corrected) scaling the field by `c` does not scale the flux field by
    `c` in general: the exact law is
    `flux(c*q) = c*flux(q) + (c^2 - c)*quadPart(q)` with `quadPart` the
    quadratic self-advection part `-(u*q_x + q_y*v)`; the enstrophy does scale
    by `c^2` as claimed. -/
theorem C8_main (p : Parms) (q : Mat p.Ny p.Nx) (c : ℝ) :
    fluxF p (c • q) = c • fluxF p q + (c ^ 2 - c) • quadPart p q ∧
    (flux_qg p (c • q)).2.2.1 = c ^ 2 * (flux_qg p q).2.2.1 :=
  ⟨flux_scale p q c, enstr_scale p q c⟩

/-- C8 counterexample: doubling the concrete field `qEx` does not double the
    flux: at entry (0,1) the quadratic part is `1/10 ≠ 0`, so
    `flux(2*q) ≠ 2*flux(q)` there. -/
theorem C8_counterexample :
    fluxF pEx ((2 : ℝ) • qEx) (⟨0, pEx_Ny_pos⟩ : Fin pEx.Ny)
        (⟨1, pEx_Nx_1⟩ : Fin pEx.Nx) ≠
      2 * fluxF pEx qEx (⟨0, pEx_Ny_pos⟩ : Fin pEx.Ny) (⟨1, pEx_Nx_1⟩ : Fin pEx.Nx) := by
  have h := congrFun (congrFun (flux_scale pEx qEx 2) (⟨0, pEx_Ny_pos⟩ : Fin pEx.Ny))
    (⟨1, pEx_Nx_1⟩ : Fin pEx.Nx)
  simp only [Pi.add_apply, Pi.smul_apply, smul_eq_mul] at h
  have h2 : ((2 : ℝ) ^ 2 - 2) = 2 := by norm_num
  rw [h, h2, quad_qEx_01]
  intro heq
  linarith

/-- C9: restricting the antisymmetric extension back to the top `Ny` rows is
    the identity on the physical field. -/
theorem C9_main {Ny Nx : ℕ} (q : Mat Ny Nx) : restrict (extend q) = q :=
  restrict_extend q

end QG
